import Mathlib

/-!
Shallow embedding of the duplicate-prevention / asynchronous job lifecycle
manager of the cs-api repository (Convex functions in convex/crons.ts plus the
orchestration wrappers in src/lib), together with proofs of the behavioural
claims about it.

Conventions of the embedding:
* JS timestamps (milliseconds from Date.now()) are modelled as Int.
* A Convex table is a List of rows in ascending order of the built-in
  creation time, so the head of a filtered list is the oldest match and the
  last element is the newest match.  .first() on an index query without
  .order("desc") therefore takes the head of the matches; with .order("desc")
  it takes the last element.
* Convex document ids are Nat; insertion assigns an id strictly larger than
  every id in the table.
* v.optional fields are Option; JS truthiness of numbers (0 is falsy) and of
  strings (the empty string is falsy) is modelled explicitly where the source
  relies on it.
* Background execution is modelled by splitting each orchestration function
  into its synchronous part (which returns the caller response together with
  the id of the scheduled background task, if any) and a total background
  function; failures of external calls are Except values passed in as data.
-/

namespace CsApi

/-- Timestamps in milliseconds, as produced by JS Date.now(). -/
abbrev Time := Int

/-- Convex document ids. -/
abbrev DocId := Nat

/-- The status field of a search unit (researchReports, linkedinSearches,
jobsSearches). -/
inductive Status where
  | pending
  | complete
  | failed
deriving DecidableEq, Repr

/-- The opaque data payload of a search unit (v.any() in the schema):
the empty object written at creation, the JS null written by
findOrCreateJobSearch, a result payload, or the error object written by the
markFailed mutations. -/
inductive RData where
  | emptyObj
  | null
  | payload (s : String)
  | errorMsg (s : String)
deriving DecidableEq, Repr

/-- The tri-state isProcessed field of result records:
the string values false, pending and true. -/
inductive PState where
  | sFalse
  | sPending
  | sTrue
deriving DecidableEq, Repr

def fiveMinutesMs : Time := 5 * 60 * 1000
def twentyFourHoursMs : Time := 24 * 60 * 60 * 1000
def sevenDaysMs : Time := 7 * 24 * 60 * 60 * 1000

/-- JS a || b on numeric timestamps: 0 is falsy. -/
def jsOrTime (a b : Time) : Time := if a = 0 then b else a

/-- JS x && x < now on an optional timestamp field: undefined and 0 are
falsy, so the conjunction only holds for a present non-zero timestamp that is
strictly below now. -/
def truthyTimeLt (x : Option Time) (now : Time) : Bool :=
  match x with
  | none => false
  | some e => e != 0 && decide (e < now)

/-- JS x && x > now on an optional timestamp field. -/
def truthyTimeGt (x : Option Time) (now : Time) : Bool :=
  match x with
  | none => false
  | some e => e != 0 && decide (now < e)

/-- Convex filter q.lt(field, now) on an optional numeric field; pending
rows always carry the field in this code base, so the missing case is
irrelevant to the claims and modelled as false. -/
def fieldLt (x : Option Time) (now : Time) : Bool :=
  match x with
  | none => false
  | some e => decide (e < now)

/-- JS args.countryCode || undefined: the empty string is falsy and is
normalised to undefined by the query code (but not by the insert code). -/
def orUndefined (cc : Option String) : Option String :=
  match cc with
  | some s => if s = "" then none else some s
  | none => none

/-- JS s.trim().length === 0 : the string consists only of whitespace
(JS String.prototype.trim removes leading and trailing whitespace, so the
trimmed length is zero exactly when every character is whitespace). -/
def trimLengthZero (s : String) : Bool := s.data.all Char.isWhitespace

/-- Largest id present in a table (0 for the empty table). -/
def maxId (ids : List DocId) : DocId := ids.foldr max 0

/-- Convex assigns a fresh id on insert; we model it as one more than the
largest id in the table. -/
def freshId (ids : List DocId) : DocId := maxId ids + 1

/-! ### Job searches (jobsSearches table, convex/crons.ts) -/

/-- One row of the jobsSearches table. -/
structure JobSearchRow where
  id : DocId
  query : String
  location : String
  numResults : Nat
  countryCode : Option String
  data : RData
  status : Status
  expiresAt : Option Time
  userId : Option String
  createdAt : Time
  updatedAt : Time
deriving DecidableEq, Repr

/-- Equality on the by_search_unique index key of jobsSearches. -/
def jobSearchMatches (q l : String) (cc : Option String) (n : Nat)
    (r : JobSearchRow) : Bool :=
  r.query == q && r.location == l && r.countryCode == cc && r.numResults == n

/-- The lookup in findOrCreateJobSearch:
withIndex("by_search_unique", ...).first().  NOTE: the source omits
.order("desc") here (unlike findExistingJobSearch on the same index), so
Convex returns the OLDEST matching row. -/
def oldestJobSearchMatching (db : List JobSearchRow) (q l : String)
    (cc : Option String) (n : Nat) : Option JobSearchRow :=
  (db.filter (jobSearchMatches q l cc n)).head?

/-- Arguments of the findOrCreateJobSearch mutation. -/
structure JobSearchArgs where
  query : String
  location : String
  numResults : Nat
  countryCode : Option String
  userId : Option String
deriving DecidableEq, Repr

/-- Return value of findOrCreateJobSearch. -/
structure FindOrCreateResult where
  searchId : DocId
  isExisting : Bool
  status : Status
deriving DecidableEq, Repr

/-- The row inserted by findOrCreateJobSearch: a pending search with a five
minute expiry, countryCode stored verbatim. -/
def newJobSearchRow (args : JobSearchArgs) (id : DocId) (now : Time) : JobSearchRow :=
  { id := id, query := args.query, location := args.location,
    numResults := args.numResults, countryCode := args.countryCode,
    data := .null, status := .pending, expiresAt := some (now + fiveMinutesMs),
    userId := args.userId, createdAt := now, updatedAt := now }

/-- The findOrCreateJobSearch mutation (convex/crons.ts).  It looks up the
oldest row matching the dedup key, reuses it when it is complete and less
than 24 hours old (by updatedAt || createdAt) or pending and unexpired, and
otherwise inserts a fresh pending row with a 5 minute expiry.  Note that the
insert stores args.countryCode verbatim while the lookup normalises the empty
string to undefined. -/
def findOrCreateJobSearch (db : List JobSearchRow) (args : JobSearchArgs)
    (now : Time) : FindOrCreateResult × List JobSearchRow :=
  let existing? := oldestJobSearchMatching db args.query args.location
      (orUndefined args.countryCode) args.numResults
  let reuse : Option FindOrCreateResult :=
    match existing? with
    | none => none
    | some existing =>
        if existing.status = .complete ∧
            now - twentyFourHoursMs < jsOrTime existing.updatedAt existing.createdAt then
          some ⟨existing.id, true, .complete⟩
        else if existing.status = .pending ∧ truthyTimeGt existing.expiresAt now then
          some ⟨existing.id, true, .pending⟩
        else none
  match reuse with
  | some r => (r, db)
  | none =>
      let id := freshId (db.map (·.id))
      (⟨id, false, .pending⟩, db ++ [newJobSearchRow args id now])

/-- The updateJobSearchResults mutation: patch data and status, bump
updatedAt, clear expiresAt. -/
def updateJobSearchResults (db : List JobSearchRow) (id : DocId) (data : RData)
    (status : Status) (now : Time) : List JobSearchRow :=
  db.map fun r =>
    if r.id = id then
      { r with data := data, status := status, updatedAt := now, expiresAt := none }
    else r

/-! ### Job results (jobsResults table, convex/crons.ts) -/

/-- One row of the jobsResults table (fields relevant to the lifecycle;
rawData is required by the schema, aiData and isProcessed are optional). -/
structure JobResultRow where
  id : DocId
  jobId : String
  title : String
  companyName : String
  location : String
  description : String
  provider : String
  rawData : RData
  aiData : Option RData
  isProcessed : Option PState
  processingError : Option String
  searchId : Option DocId
  userId : Option String
  countryCode : Option String
  createdAt : Time
  updatedAt : Time
deriving DecidableEq, Repr

/-- Equality on the by_job_unique index key of jobsResults. -/
def jobResultMatches (j p : String) (cc : Option String) (r : JobResultRow) : Bool :=
  r.jobId == j && r.provider == p && r.countryCode == cc

/-- The lookup in saveJobIfNotExists:
withIndex("by_job_unique", ...).first(). -/
def oldestJobResultMatching (db : List JobResultRow) (j p : String)
    (cc : Option String) : Option JobResultRow :=
  (db.filter (jobResultMatches j p cc)).head?

/-- Arguments of the saveJobIfNotExists mutation. -/
structure SaveJobArgs where
  jobId : String
  title : String
  companyName : String
  location : String
  description : String
  provider : String
  rawData : RData
  searchId : DocId
  userId : Option String
  countryCode : Option String
deriving DecidableEq, Repr

/-- The row inserted by saveJobIfNotExists: the raw candidate with
isProcessed = "false", countryCode stored verbatim. -/
def newJobResultRow (a : SaveJobArgs) (id : DocId) (now : Time) : JobResultRow :=
  { id := id, jobId := a.jobId, title := a.title, companyName := a.companyName,
    location := a.location, description := a.description, provider := a.provider,
    rawData := a.rawData, aiData := none, isProcessed := some .sFalse,
    processingError := none, searchId := some a.searchId, userId := a.userId,
    countryCode := a.countryCode, createdAt := now, updatedAt := now }

/-- The saveJobIfNotExists mutation (convex/crons.ts): look up an existing
jobsResults row by (jobId, provider, countryCode || undefined); if found,
return its id with isNew = false and change nothing; otherwise insert a new
row with isProcessed = "false".  The insert stores args.countryCode verbatim
while the lookup normalises the empty string to undefined. -/
def saveJobIfNotExists (db : List JobResultRow) (a : SaveJobArgs) (now : Time) :
    (DocId × Bool) × List JobResultRow :=
  match oldestJobResultMatching db a.jobId a.provider (orUndefined a.countryCode) with
  | some existing => ((existing.id, false), db)
  | none =>
      let id := freshId (db.map (·.id))
      ((id, true), db ++ [newJobResultRow a id now])

/-! ### searchJobs (src/lib/jobs/jobSearch.ts) -/

/-- Raw parameters given to searchJobs before validation. -/
structure JobSearchParams where
  query : String
  location : String
  numResults : Option Nat
  countryCode : Option String
deriving DecidableEq, Repr

/-- validateJobSearchParams (src/lib/jobs/jobSearch.ts): reject an empty or
whitespace query or location, reject a provided non-empty countryCode whose
trim is empty (the empty string itself is falsy in JS and passes the check),
and always overwrite numResults with the constant 30. -/
def validateJobSearchParams (p : JobSearchParams) (userId : Option String) :
    Except String JobSearchArgs :=
  if trimLengthZero p.query then
    .error "Search query is required and must be a non-empty string"
  else if trimLengthZero p.location then
    .error "Location is required and must be a non-empty string"
  else
    match p.countryCode with
    | some cc =>
        if cc ≠ "" ∧ trimLengthZero cc then
          .error "Country code must be a non-empty string if provided"
        else .ok ⟨p.query, p.location, 30, p.countryCode, userId⟩
    | none => .ok ⟨p.query, p.location, 30, p.countryCode, userId⟩

/-- A raw candidate job as returned by the provider gateway. -/
structure RawJob where
  id : String
  title : String
  companyName : String
  location : String
  description : String
  provider : String
deriving DecidableEq, Repr

/-- storeRawJobResult for each raw candidate in order (job-storage.ts):
each candidate is persisted through saveJobIfNotExists, keyed by its
provider-native id. -/
def storeRawJobs (db : List JobResultRow) (raws : List RawJob) (searchId : DocId)
    (userId : Option String) (cc : Option String) (now : Time) : List JobResultRow :=
  raws.foldl
    (fun acc raw =>
      (saveJobIfNotExists acc
        ⟨raw.id, raw.title, raw.companyName, raw.location, raw.description,
         raw.provider, .payload raw.id, searchId, userId, cc⟩ now).2)
    db

/-- The response searchJobs returns to its caller. -/
structure JobSearchResponse where
  searchId : DocId
  status : Status
  isExisting : Bool
deriving DecidableEq, Repr

/-- searchJobs (src/lib/jobs/jobSearch.ts).  The provider fetch is passed in
as an Except value: .ok raws models a successful executeJobSearch, .error e a
throwing one.  The function validates, runs findOrCreateJobSearch, returns
reused complete or pending searches immediately, and otherwise executes the
fetch within the request: on success it marks the search complete and stores
the raw candidates, on failure the catch block marks the search failed and
the function returns status failed — the exception never escapes searchJobs.
A validation failure is caught by the outer catch which returns status failed
with a fallback id not taken from the table. -/
def searchJobs (dbS : List JobSearchRow) (dbR : List JobResultRow)
    (p : JobSearchParams) (userId : Option String) (now : Time)
    (fetcher : Except String (List RawJob)) :
    JobSearchResponse × List JobSearchRow × List JobResultRow :=
  match validateJobSearchParams p userId with
  | .error _ => (⟨freshId (dbS.map (·.id)), .failed, false⟩, dbS, dbR)
  | .ok vp =>
      let fc := findOrCreateJobSearch dbS vp now
      if fc.1.isExisting = true ∧ fc.1.status = .complete then
        (⟨fc.1.searchId, .complete, true⟩, fc.2, dbR)
      else if fc.1.isExisting = true ∧ fc.1.status = .pending then
        (⟨fc.1.searchId, .pending, true⟩, fc.2, dbR)
      else
        match fetcher with
        | .ok raws =>
            (⟨fc.1.searchId, .complete, false⟩,
             updateJobSearchResults fc.2 fc.1.searchId (.payload "job results") .complete now,
             storeRawJobs dbR raws fc.1.searchId userId vp.countryCode now)
        | .error e =>
            (⟨fc.1.searchId, .failed, false⟩,
             updateJobSearchResults fc.2 fc.1.searchId (.errorMsg e) .failed now,
             dbR)

/-! ### Research reports (researchReports table, convex/crons.ts, and
performResearch in src/lib research service) -/

/-- The type parameter of a research request. -/
inductive RType where
  | structured
  | completion
  | streaming
deriving DecidableEq, Repr

/-- One row of the researchReports table. -/
structure ResearchRow where
  id : DocId
  company : String
  position : String
  location : String
  rtype : RType
  data : RData
  status : Status
  expiresAt : Option Time
  userId : Option String
  createdAt : Time
  updatedAt : Time
deriving DecidableEq, Repr

/-- Equality on the by_research_key index key of researchReports. -/
def researchMatches (c p l : String) (t : RType) (r : ResearchRow) : Bool :=
  r.company == c && r.position == p && r.location == l && r.rtype == t

/-- The lookup in findExistingResearch:
withIndex("by_research_key", ...).order("desc").first(), i.e. the NEWEST
matching row. -/
def newestResearchMatching (db : List ResearchRow) (c p l : String) (t : RType) :
    Option ResearchRow :=
  (db.filter (researchMatches c p l t)).getLast?

/-- The value findExistingResearch returns for a found row: the row itself,
the status as seen by the caller (overridden to failed for an expired pending
row, without writing the table), and the isStale marker added to a complete
row older than seven days. -/
structure ResearchFound where
  row : ResearchRow
  viewStatus : Status
  isStale : Bool
deriving DecidableEq, Repr

/-- The findExistingResearch query (convex/crons.ts): look up the newest row
with the exact parameters; report an expired pending row as failed (lazy
expiry, read-time only); mark a complete row created more than seven days ago
as stale; otherwise return the row as stored. -/
def findExistingResearch (db : List ResearchRow) (c p l : String) (t : RType)
    (now : Time) : Option ResearchFound :=
  let sevenDaysAgo := now - sevenDaysMs
  match newestResearchMatching db c p l t with
  | none => none
  | some existing =>
      if existing.status = .pending ∧ truthyTimeLt existing.expiresAt now then
        some ⟨existing, .failed, false⟩
      else if existing.createdAt < sevenDaysAgo ∧ existing.status = .complete then
        some ⟨existing, existing.status, true⟩
      else some ⟨existing, existing.status, false⟩

/-- The cleanupExpiredEntries mutation: flip every pending row whose
expiresAt is in the past to failed and bump its updatedAt. -/
def cleanupExpiredEntries (db : List ResearchRow) (now : Time) : List ResearchRow :=
  db.map fun r =>
    if r.status = .pending ∧ fieldLt r.expiresAt now then
      { r with status := .failed, updatedAt := now }
    else r

/-- The row inserted by createPendingResearch. -/
def newResearchRow (c p l : String) (t : RType) (userId : Option String)
    (id : DocId) (now : Time) : ResearchRow :=
  { id := id, company := c, position := p, location := l, rtype := t,
    data := .emptyObj, status := .pending, expiresAt := some (now + fiveMinutesMs),
    userId := userId, createdAt := now, updatedAt := now }

/-- The createPendingResearch mutation: insert a pending row whose expiresAt
is five minutes from now. -/
def createPendingResearch (db : List ResearchRow) (c p l : String) (t : RType)
    (userId : Option String) (now : Time) : DocId × List ResearchRow :=
  let id := freshId (db.map (·.id))
  (id, db ++ [newResearchRow c p l t userId id now])

/-- The updateResearchReport mutation: patch data and status (complete or
failed) and bump updatedAt.  markResearchFailed is this mutation with an
error payload and status failed. -/
def updateResearchReport (db : List ResearchRow) (id : DocId) (data : RData)
    (status : Status) (now : Time) : List ResearchRow :=
  db.map fun r =>
    if r.id = id then { r with data := data, status := status, updatedAt := now }
    else r

/-- The response performResearch returns to its caller. -/
structure ResearchResponse where
  reportId : DocId
  status : Status
  isExisting : Bool
deriving DecidableEq, Repr

/-- The synchronous part of performResearch (research.ts): clean up expired
entries, look up an existing report, and apply the decision table — return a
fresh complete report or an unexpired pending report as isExisting = true,
and otherwise (stale, failed or absent) create a new pending entry.  The
third component is the background task scheduled by the un-awaited
executeResearch call: some id exactly when a new pending entry was created.
The caller receives the response before the background task runs. -/
def performResearchSync (db : List ResearchRow) (c p l : String) (t : RType)
    (userId : Option String) (now : Time) :
    ResearchResponse × List ResearchRow × Option DocId :=
  match findExistingResearch (cleanupExpiredEntries db now) c p l t now with
  | some f =>
      match f.viewStatus with
      | .complete =>
          if f.isStale then
            (⟨(createPendingResearch (cleanupExpiredEntries db now) c p l t userId now).1,
              .pending, false⟩,
             (createPendingResearch (cleanupExpiredEntries db now) c p l t userId now).2,
             some (createPendingResearch (cleanupExpiredEntries db now) c p l t userId now).1)
          else (⟨f.row.id, .complete, true⟩, cleanupExpiredEntries db now, none)
      | .pending => (⟨f.row.id, .pending, true⟩, cleanupExpiredEntries db now, none)
      | .failed =>
          (⟨(createPendingResearch (cleanupExpiredEntries db now) c p l t userId now).1,
            .pending, false⟩,
           (createPendingResearch (cleanupExpiredEntries db now) c p l t userId now).2,
           some (createPendingResearch (cleanupExpiredEntries db now) c p l t userId now).1)
  | none =>
      (⟨(createPendingResearch (cleanupExpiredEntries db now) c p l t userId now).1,
        .pending, false⟩,
       (createPendingResearch (cleanupExpiredEntries db now) c p l t userId now).2,
       some (createPendingResearch (cleanupExpiredEntries db now) c p l t userId now).1)

/-- The background execution of performResearch: executeResearch together
with the catch handler attached to it.  A successful fetch stores the result
and marks the report complete; a throwing fetch is caught and converted into
markResearchFailed.  The function is total: no outcome of the fetch escapes
to the original caller. -/
def researchBackground (db : List ResearchRow) (reportId : DocId)
    (fetch : Except String String) (now : Time) : List ResearchRow :=
  match fetch with
  | .ok text => updateResearchReport db reportId (.payload text) .complete now
  | .error e => updateResearchReport db reportId (.errorMsg e) .failed now

/-! ### LinkedIn searches (linkedinSearches table, convex/crons.ts, and
searchLinkedInProfessionals in src/lib/linkedin/linkedin.ts) -/

/-- One row of the linkedinSearches table. -/
structure LinkedInSearchRow where
  id : DocId
  jobTitle : String
  userLocation : String
  numResults : Nat
  data : RData
  status : Status
  expiresAt : Option Time
  userId : Option String
  createdAt : Time
  updatedAt : Time
deriving DecidableEq, Repr

/-- Equality on the by_search_key index key of linkedinSearches. -/
def linkedInSearchMatches (jt ul : String) (n : Nat) (r : LinkedInSearchRow) : Bool :=
  r.jobTitle == jt && r.userLocation == ul && r.numResults == n

/-- The lookup in findExistingLinkedInSearch:
withIndex("by_search_key", ...).order("desc").first(), the newest match. -/
def newestLinkedInSearchMatching (db : List LinkedInSearchRow) (jt ul : String)
    (n : Nat) : Option LinkedInSearchRow :=
  (db.filter (linkedInSearchMatches jt ul n)).getLast?

/-- The value findExistingLinkedInSearch returns for a found row. -/
structure LinkedInFound where
  row : LinkedInSearchRow
  viewStatus : Status
  isStale : Bool
deriving DecidableEq, Repr

/-- The findExistingLinkedInSearch query (convex/crons.ts): like
findExistingResearch but with a 24 hour staleness threshold. -/
def findExistingLinkedInSearch (db : List LinkedInSearchRow) (jt ul : String)
    (n : Nat) (now : Time) : Option LinkedInFound :=
  let oneDayAgo := now - twentyFourHoursMs
  match newestLinkedInSearchMatching db jt ul n with
  | none => none
  | some existing =>
      if existing.status = .pending ∧ truthyTimeLt existing.expiresAt now then
        some ⟨existing, .failed, false⟩
      else if existing.createdAt < oneDayAgo ∧ existing.status = .complete then
        some ⟨existing, existing.status, true⟩
      else some ⟨existing, existing.status, false⟩

/-- The cleanupExpiredLinkedInEntries mutation. -/
def cleanupExpiredLinkedInEntries (db : List LinkedInSearchRow) (now : Time) :
    List LinkedInSearchRow :=
  db.map fun r =>
    if r.status = .pending ∧ fieldLt r.expiresAt now then
      { r with status := .failed, updatedAt := now }
    else r

/-- The row inserted by createPendingLinkedInSearch. -/
def newLinkedInSearchRow (jt ul : String) (n : Nat) (userId : Option String)
    (id : DocId) (now : Time) : LinkedInSearchRow :=
  { id := id, jobTitle := jt, userLocation := ul, numResults := n,
    data := .emptyObj, status := .pending, expiresAt := some (now + fiveMinutesMs),
    userId := userId, createdAt := now, updatedAt := now }

/-- The createPendingLinkedInSearch mutation. -/
def createPendingLinkedInSearch (db : List LinkedInSearchRow) (jt ul : String)
    (n : Nat) (userId : Option String) (now : Time) : DocId × List LinkedInSearchRow :=
  let id := freshId (db.map (·.id))
  (id, db ++ [newLinkedInSearchRow jt ul n userId id now])

/-- The updateLinkedInSearchResults mutation: patch data and status and bump
updatedAt.  markLinkedInSearchFailed is this mutation with an error payload
and status failed. -/
def updateLinkedInSearchResults (db : List LinkedInSearchRow) (id : DocId)
    (data : RData) (status : Status) (now : Time) : List LinkedInSearchRow :=
  db.map fun r =>
    if r.id = id then { r with data := data, status := status, updatedAt := now }
    else r

/-- The synchronous part of searchLinkedInProfessionals (linkedin.ts),
structured exactly like performResearchSync. -/
def searchLinkedInSync (db : List LinkedInSearchRow) (jt ul : String) (n : Nat)
    (userId : Option String) (now : Time) :
    ResearchResponse × List LinkedInSearchRow × Option DocId :=
  match findExistingLinkedInSearch (cleanupExpiredLinkedInEntries db now) jt ul n now with
  | some f =>
      match f.viewStatus with
      | .complete =>
          if f.isStale then
            (⟨(createPendingLinkedInSearch (cleanupExpiredLinkedInEntries db now) jt ul n userId now).1,
              .pending, false⟩,
             (createPendingLinkedInSearch (cleanupExpiredLinkedInEntries db now) jt ul n userId now).2,
             some (createPendingLinkedInSearch (cleanupExpiredLinkedInEntries db now) jt ul n userId now).1)
          else (⟨f.row.id, .complete, true⟩, cleanupExpiredLinkedInEntries db now, none)
      | .pending => (⟨f.row.id, .pending, true⟩, cleanupExpiredLinkedInEntries db now, none)
      | .failed =>
          (⟨(createPendingLinkedInSearch (cleanupExpiredLinkedInEntries db now) jt ul n userId now).1,
            .pending, false⟩,
           (createPendingLinkedInSearch (cleanupExpiredLinkedInEntries db now) jt ul n userId now).2,
           some (createPendingLinkedInSearch (cleanupExpiredLinkedInEntries db now) jt ul n userId now).1)
  | none =>
      (⟨(createPendingLinkedInSearch (cleanupExpiredLinkedInEntries db now) jt ul n userId now).1,
        .pending, false⟩,
       (createPendingLinkedInSearch (cleanupExpiredLinkedInEntries db now) jt ul n userId now).2,
       some (createPendingLinkedInSearch (cleanupExpiredLinkedInEntries db now) jt ul n userId now).1)

/-- The background execution of searchLinkedInProfessionals with its catch
handler, like researchBackground. -/
def linkedInBackground (db : List LinkedInSearchRow) (searchId : DocId)
    (fetch : Except String String) (now : Time) : List LinkedInSearchRow :=
  match fetch with
  | .ok text => updateLinkedInSearchResults db searchId (.payload text) .complete now
  | .error e => updateLinkedInSearchResults db searchId (.errorMsg e) .failed now

/-! ### Batch processing (processUnprocessedJobs and
processUnprocessedLinkedInProfiles, convex/crons.ts) -/

/-- The selection filter of processUnprocessedJobs:
q.eq(isProcessed, "false") and q.neq(rawData, null).  jobsResults.rawData is
a required field, so it is present and only the JS null value is excluded. -/
def unprocessedJobPred (r : JobResultRow) : Bool :=
  r.isProcessed == some .sFalse && r.rawData != RData.null

/-- The batch selected by processUnprocessedJobs: the first batchSize rows
satisfying the filter, in ascending creation order (the query has no
.order). -/
def selectUnprocessedJobs (db : List JobResultRow) (batchSize : Nat) :
    List JobResultRow :=
  (db.filter unprocessedJobPred).take batchSize

/-- Patch a jobsResults row to isProcessed = "pending" (the write performed
on each selected job before its AI processing action is scheduled). -/
def markJobProcessingPending (db : List JobResultRow) (id : DocId) (now : Time) :
    List JobResultRow :=
  db.map fun r =>
    if r.id = id then { r with isProcessed := some .sPending, updatedAt := now }
    else r

/-- The loop body of processUnprocessedJobs: for each selected job, first
patch it to isProcessed = "pending", then schedule the AI processing action
for it (we record the scheduled ids in order). -/
def processJobsLoop (db : List JobResultRow) (sel : List JobResultRow)
    (now : Time) : List JobResultRow × List DocId :=
  match sel with
  | [] => (db, [])
  | j :: rest =>
      let db1 := markJobProcessingPending db j.id now
      let next := processJobsLoop db1 rest now
      (next.1, j.id :: next.2)

/-- The processUnprocessedJobs internal mutation (convex/crons.ts): JS
args.batchSize || 50, select a batch of unprocessed jobs with raw data, and
for each one mark it pending and dispatch its enrichment. -/
def processUnprocessedJobs (db : List JobResultRow) (batchSize : Nat)
    (now : Time) : List JobResultRow × List DocId :=
  let b := if batchSize = 0 then 50 else batchSize
  processJobsLoop db (selectUnprocessedJobs db b) now

/-- The markJobError internal mutation: record the error message and reset
isProcessed to "false" so the job can be retried. -/
def markJobError (db : List JobResultRow) (id : DocId) (err : String)
    (now : Time) : List JobResultRow :=
  db.map fun r =>
    if r.id = id then
      { r with processingError := some err, isProcessed := some .sFalse,
               updatedAt := now }
    else r

/-- One row of the linkedinProfiles table (fields relevant to processing;
rawData is optional in this table, none models the absent field). -/
structure LinkedInProfileRow where
  id : DocId
  exaId : String
  url : String
  author : String
  isProcessed : Option PState
  rawData : Option RData
  processingError : Option String
  createdAt : Time
  updatedAt : Time
deriving DecidableEq, Repr

/-- The selection filter of processUnprocessedLinkedInProfiles:
q.eq(isProcessed, "false") and q.neq(rawData, null); a missing rawData field
is undefined, which Convex treats as different from null. -/
def unprocessedProfilePred (r : LinkedInProfileRow) : Bool :=
  r.isProcessed == some .sFalse && r.rawData != some RData.null

/-- The batch selected by processUnprocessedLinkedInProfiles. -/
def selectUnprocessedProfiles (db : List LinkedInProfileRow) (batchSize : Nat) :
    List LinkedInProfileRow :=
  (db.filter unprocessedProfilePred).take batchSize

/-- Patch a linkedinProfiles row to isProcessed = "pending". -/
def markProfileProcessingPending (db : List LinkedInProfileRow) (id : DocId)
    (now : Time) : List LinkedInProfileRow :=
  db.map fun r =>
    if r.id = id then { r with isProcessed := some .sPending, updatedAt := now }
    else r

/-- The loop body of processUnprocessedLinkedInProfiles: patch each selected
profile to pending, then schedule its AI processing action. -/
def processProfilesLoop (db : List LinkedInProfileRow)
    (sel : List LinkedInProfileRow) (now : Time) :
    List LinkedInProfileRow × List DocId :=
  match sel with
  | [] => (db, [])
  | j :: rest =>
      let db1 := markProfileProcessingPending db j.id now
      let next := processProfilesLoop db1 rest now
      (next.1, j.id :: next.2)

/-- The processUnprocessedLinkedInProfiles internal mutation:
JS args.batchSize || 5. -/
def processUnprocessedLinkedInProfiles (db : List LinkedInProfileRow)
    (batchSize : Nat) (now : Time) : List LinkedInProfileRow × List DocId :=
  let b := if batchSize = 0 then 5 else batchSize
  processProfilesLoop db (selectUnprocessedProfiles db b) now

/-- The markLinkedInProfileError internal mutation: record the error message
and reset isProcessed to "false" so the profile can be retried. -/
def markLinkedInProfileError (db : List LinkedInProfileRow) (id : DocId)
    (err : String) (now : Time) : List LinkedInProfileRow :=
  db.map fun r =>
    if r.id = id then
      { r with processingError := some err, isProcessed := some .sFalse,
               updatedAt := now }
    else r

/-! ### Cosine similarity (convex/crons.ts cosineSimilarity and
core/embeddings.ts calculateCosineSimilarity)

JS numbers are modelled as real numbers (ideal arithmetic, no floating point
rounding). -/

/-- The dot product accumulated by the loop for i in 0..a.length. -/
def dotProduct (a b : List ℝ) : ℝ :=
  ∑ i ∈ Finset.range a.length, a.getD i 0 * b.getD i 0

/-- The sum of squares accumulated by the same loop (normA and normB before
the square roots are taken). -/
def sumSquares (a : List ℝ) : ℝ :=
  ∑ i ∈ Finset.range a.length, a.getD i 0 * a.getD i 0

/-- The cosineSimilarity helper in convex/crons.ts: 0 on a length mismatch,
0 when either norm is zero, and the normalised dot product otherwise. -/
noncomputable def cosineSimilarity (a b : List ℝ) : ℝ :=
  if a.length ≠ b.length then 0
  else
    let normA := Real.sqrt (sumSquares a)
    let normB := Real.sqrt (sumSquares b)
    if normA = 0 ∨ normB = 0 then 0
    else dotProduct a b / (normA * normB)

/-- calculateCosineSimilarity in core/embeddings.ts: THROWS on a length
mismatch (modelled as Except.error), returns 0 when either norm is zero, and
the normalised dot product otherwise. -/
noncomputable def calculateCosineSimilarity (a b : List ℝ) : Except String ℝ :=
  if a.length ≠ b.length then .error "Vectors must have the same length"
  else
    let normA := Real.sqrt (sumSquares a)
    let normB := Real.sqrt (sumSquares b)
    if normA = 0 ∨ normB = 0 then .ok 0
    else .ok (dotProduct a b / (normA * normB))

/-! ### Generic list lemmas used by the proofs -/

theorem le_maxId {ids : List DocId} {i : DocId} (h : i ∈ ids) : i ≤ maxId ids := by
  induction ids with
  | nil => cases h
  | cons x xs ih =>
      rcases List.mem_cons.mp h with h1 | h2
      · subst h1; exact le_max_left _ _
      · exact le_trans (ih h2) (le_max_right _ _)

theorem freshId_not_mem {ids : List DocId} : freshId ids ∉ ids := by
  intro h
  have h2 := le_maxId h
  simp only [freshId] at h2
  exact Nat.not_succ_le_self (maxId ids) h2

theorem getLast?_mem_of_eq {α : Type} {l : List α} {a : α}
    (h : l.getLast? = some a) : a ∈ l := by
  have h2 : a ∈ l.getLast? := h
  obtain ⟨hne, rfl⟩ := List.mem_getLast?_eq_getLast h2
  exact List.getLast_mem hne

theorem filter_map_comm {α : Type} (f : α → α) (p : α → Bool)
    (h : ∀ a, p (f a) = p a) :
    ∀ l : List α, (l.map f).filter p = (l.filter p).map f := by
  intro l
  induction l with
  | nil => rfl
  | cons x xs ih =>
      simp only [List.map_cons, List.filter_cons, h x]
      cases hp : p x <;> simp [hp, ih]

/-! ## Claims -/

/-- C1.  The dedup-idempotence claim is the stated intent of
findOrCreateJobSearch (a mutation written for duplicate detection, whose
sibling findExistingJobSearch orders the same index descending), but the
mutation reads the OLDEST row matching the dedup key because it omits
.order("desc").  Concretely: starting from a table that contains one old
failed search for the key (engineer, london, 30, no country), a first call
creates a new pending unit, and a second identical call made while that unit
is still pending and unexpired examines the old failed row again, creates yet
another unit and returns a different id with isExisting = false — instead of
returning the first call's id with isExisting = true and creating nothing. -/
theorem findOrCreateJobSearch_duplicate_unit_bug :
    (let db0 : List JobSearchRow :=
      [⟨1, "engineer", "london", 30, none, .errorMsg "provider down", .failed,
        none, none, 1000, 2000⟩]
     let args : JobSearchArgs := ⟨"engineer", "london", 30, none, none⟩
     let r1 := findOrCreateJobSearch db0 args 10000
     let r2 := findOrCreateJobSearch r1.2 args 20000
     r1.1.isExisting = false ∧ r1.1.status = .pending ∧
       (∃ u ∈ r1.2, u.id = r1.1.searchId ∧ u.status = .pending ∧
         u.expiresAt = some 310000) ∧
       r2.1.isExisting = false ∧ r2.1.searchId ≠ r1.1.searchId ∧
       r2.2.length = 3) := by
  decide

/-- C5.  The lookup in findOrCreateJobSearch does not query the most recent
unit for the dedup key: it omits .order("desc"), so Convex returns the oldest
match and the decision table is applied to that one.  Concretely: with an old
failed search (id 1) and a newer pending unexpired search (id 2) for the same
key, a call at time 10000 examines the failed id 1, creates a third unit and
returns the fresh id 3 with isExisting = false — applying the decision table
to the newest unit would instead return id 2 as pending with
isExisting = true. -/
theorem findOrCreateJobSearch_oldest_not_newest_bug :
    (let db : List JobSearchRow :=
      [⟨1, "engineer", "london", 30, none, .errorMsg "provider down", .failed,
        none, none, 1000, 2000⟩,
       ⟨2, "engineer", "london", 30, none, .emptyObj, .pending, some 400000,
        none, 5000, 5000⟩]
     let out := findOrCreateJobSearch db ⟨"engineer", "london", 30, none, none⟩ 10000
     out.1.searchId = 3 ∧ out.1.isExisting = false ∧ out.2.length = 3) := by
  decide

/-! ### Lemmas for the batch-processing claims -/

theorem mem_selectUnprocessedJobs {db : List JobResultRow} {n : Nat}
    {r : JobResultRow} (h : r ∈ selectUnprocessedJobs db n) :
    r.isProcessed = some .sFalse ∧ r.rawData ≠ RData.null := by
  have h1 : r ∈ db.filter unprocessedJobPred := List.mem_of_mem_take h
  have h2 := (List.mem_filter.mp h1).2
  simp only [unprocessedJobPred, Bool.and_eq_true, beq_iff_eq, bne_iff_ne] at h2
  exact h2

theorem mem_selectUnprocessedProfiles {db : List LinkedInProfileRow} {n : Nat}
    {r : LinkedInProfileRow} (h : r ∈ selectUnprocessedProfiles db n) :
    r.isProcessed = some .sFalse ∧ r.rawData ≠ some RData.null := by
  have h1 : r ∈ db.filter unprocessedProfilePred := List.mem_of_mem_take h
  have h2 := (List.mem_filter.mp h1).2
  simp only [unprocessedProfilePred, Bool.and_eq_true, beq_iff_eq, bne_iff_ne] at h2
  exact h2

theorem markJobProcessingPending_sets (db : List JobResultRow) (id : DocId)
    (now : Time) :
    ∀ r ∈ markJobProcessingPending db id now, r.id = id →
      r.isProcessed = some .sPending := by
  intro r hr hid
  simp only [markJobProcessingPending, List.mem_map] at hr
  obtain ⟨s, _, heq⟩ := hr
  by_cases hc : s.id = id
  · rw [if_pos hc] at heq; subst heq; rfl
  · rw [if_neg hc] at heq; subst heq; exact absurd hid hc

theorem processJobsLoop_pending_preserved (sel : List JobResultRow) (now : Time)
    (id : DocId) :
    ∀ db : List JobResultRow,
      (∀ r ∈ db, r.id = id → r.isProcessed = some .sPending) →
      ∀ r ∈ (processJobsLoop db sel now).1, r.id = id →
        r.isProcessed = some .sPending := by
  induction sel with
  | nil => intro db h; simpa [processJobsLoop] using h
  | cons j rest ih =>
      intro db h r hr hid
      simp only [processJobsLoop] at hr
      refine ih (markJobProcessingPending db j.id now) ?_ r hr hid
      intro s hs hsid
      simp only [markJobProcessingPending, List.mem_map] at hs
      obtain ⟨s0, hs0, heq⟩ := hs
      by_cases hc : s0.id = j.id
      · rw [if_pos hc] at heq; subst heq; rfl
      · rw [if_neg hc] at heq; subst heq; exact h s0 hs0 hsid

theorem processJobsLoop_dispatched_pending (sel : List JobResultRow) (now : Time) :
    ∀ (db : List JobResultRow) (r : JobResultRow),
      r ∈ (processJobsLoop db sel now).1 → r.id ∈ (processJobsLoop db sel now).2 →
      r.isProcessed = some .sPending := by
  induction sel with
  | nil => intro db r _ hid; simp [processJobsLoop] at hid
  | cons j rest ih =>
      intro db r hr hid
      simp only [processJobsLoop] at hr hid
      rcases List.mem_cons.mp hid with h1 | h2
      · exact processJobsLoop_pending_preserved rest now j.id _
          (markJobProcessingPending_sets db j.id now) r hr h1
      · exact ih (markJobProcessingPending db j.id now) r hr h2

theorem markProfileProcessingPending_sets (db : List LinkedInProfileRow)
    (id : DocId) (now : Time) :
    ∀ r ∈ markProfileProcessingPending db id now, r.id = id →
      r.isProcessed = some .sPending := by
  intro r hr hid
  simp only [markProfileProcessingPending, List.mem_map] at hr
  obtain ⟨s, _, heq⟩ := hr
  by_cases hc : s.id = id
  · rw [if_pos hc] at heq; subst heq; rfl
  · rw [if_neg hc] at heq; subst heq; exact absurd hid hc

theorem processProfilesLoop_pending_preserved (sel : List LinkedInProfileRow)
    (now : Time) (id : DocId) :
    ∀ db : List LinkedInProfileRow,
      (∀ r ∈ db, r.id = id → r.isProcessed = some .sPending) →
      ∀ r ∈ (processProfilesLoop db sel now).1, r.id = id →
        r.isProcessed = some .sPending := by
  induction sel with
  | nil => intro db h; simpa [processProfilesLoop] using h
  | cons j rest ih =>
      intro db h r hr hid
      simp only [processProfilesLoop] at hr
      refine ih (markProfileProcessingPending db j.id now) ?_ r hr hid
      intro s hs hsid
      simp only [markProfileProcessingPending, List.mem_map] at hs
      obtain ⟨s0, hs0, heq⟩ := hs
      by_cases hc : s0.id = j.id
      · rw [if_pos hc] at heq; subst heq; rfl
      · rw [if_neg hc] at heq; subst heq; exact h s0 hs0 hsid

theorem processProfilesLoop_dispatched_pending (sel : List LinkedInProfileRow)
    (now : Time) :
    ∀ (db : List LinkedInProfileRow) (r : LinkedInProfileRow),
      r ∈ (processProfilesLoop db sel now).1 →
      r.id ∈ (processProfilesLoop db sel now).2 →
      r.isProcessed = some .sPending := by
  induction sel with
  | nil => intro db r _ hid; simp [processProfilesLoop] at hid
  | cons j rest ih =>
      intro db r hr hid
      simp only [processProfilesLoop] at hr hid
      rcases List.mem_cons.mp hid with h1 | h2
      · exact processProfilesLoop_pending_preserved rest now j.id _
          (markProfileProcessingPending_sets db j.id now) r hr h1
      · exact ih (markProfileProcessingPending db j.id now) r hr h2

/-- C7.  No double-processing: the batch selection queries of
processUnprocessedJobs and processUnprocessedLinkedInProfiles select only
records with isProcessed = "false" and a rawData field different from null
(so records that are processed, "true", or in flight, "pending", are never
selected), and every record whose enrichment has been dispatched by the batch
loop was flipped to "pending" before dispatch — in the loop the patch
precedes the scheduler call, and the resulting table shows every dispatched
id as "pending". -/
theorem no_double_processing :
    (∀ (db : List JobResultRow) (n : Nat) (r : JobResultRow),
        r ∈ selectUnprocessedJobs db n →
        r.isProcessed = some .sFalse ∧ r.rawData ≠ RData.null) ∧
    (∀ (db : List JobResultRow) (n : Nat) (r : JobResultRow),
        r.isProcessed = some .sTrue ∨ r.isProcessed = some .sPending →
        r ∉ selectUnprocessedJobs db n) ∧
    (∀ (db : List JobResultRow) (n : Nat) (now : Time) (r : JobResultRow),
        r ∈ (processUnprocessedJobs db n now).1 →
        r.id ∈ (processUnprocessedJobs db n now).2 →
        r.isProcessed = some .sPending) ∧
    (∀ (db : List LinkedInProfileRow) (n : Nat) (r : LinkedInProfileRow),
        r ∈ selectUnprocessedProfiles db n →
        r.isProcessed = some .sFalse ∧ r.rawData ≠ some RData.null) ∧
    (∀ (db : List LinkedInProfileRow) (n : Nat) (r : LinkedInProfileRow),
        r.isProcessed = some .sTrue ∨ r.isProcessed = some .sPending →
        r ∉ selectUnprocessedProfiles db n) ∧
    (∀ (db : List LinkedInProfileRow) (n : Nat) (now : Time)
        (r : LinkedInProfileRow),
        r ∈ (processUnprocessedLinkedInProfiles db n now).1 →
        r.id ∈ (processUnprocessedLinkedInProfiles db n now).2 →
        r.isProcessed = some .sPending) := by
  refine ⟨?_, ?_, ?_, ?_, ?_, ?_⟩
  · intro db n r h; exact mem_selectUnprocessedJobs h
  · intro db n r h hmem
    have h2 := (mem_selectUnprocessedJobs hmem).1
    rcases h with h1 | h1 <;> rw [h1] at h2 <;> exact Option.some.inj h2 |> fun hx => by cases hx
  · intro db n now r h1 h2
    exact processJobsLoop_dispatched_pending _ now db r h1 h2
  · intro db n r h; exact mem_selectUnprocessedProfiles h
  · intro db n r h hmem
    have h2 := (mem_selectUnprocessedProfiles hmem).1
    rcases h with h1 | h1 <;> rw [h1] at h2 <;> exact Option.some.inj h2 |> fun hx => by cases hx
  · intro db n now r h1 h2
    exact processProfilesLoop_dispatched_pending _ now db r h1 h2

/-- C7 witness: a concrete table with one processed, one in-flight and one
unprocessed job; the batch selects only the unprocessed one, and after the
run the dispatched record is pending. -/
theorem no_double_processing_witness :
    (⟨3, "j3", "t", "c", "l", "d", "serpapi", .payload "raw", none,
       some .sFalse, none, none, none, none, 0, 0⟩ : JobResultRow) ∈
      selectUnprocessedJobs
        [⟨1, "j1", "t", "c", "l", "d", "serpapi", .payload "raw", none,
          some .sTrue, none, none, none, none, 0, 0⟩,
         ⟨2, "j2", "t", "c", "l", "d", "serpapi", .payload "raw", none,
          some .sPending, none, none, none, none, 0, 0⟩,
         ⟨3, "j3", "t", "c", "l", "d", "serpapi", .payload "raw", none,
          some .sFalse, none, none, none, none, 0, 0⟩] 10 ∧
    (⟨3, "j3", "t", "c", "l", "d", "serpapi", .payload "raw", none,
       some .sFalse, none, none, none, none, 0, 0⟩ : JobResultRow).isProcessed =
      some .sFalse ∧
    (⟨3, "j3", "t", "c", "l", "d", "serpapi", .payload "raw", none,
       some .sFalse, none, none, none, none, 0, 0⟩ : JobResultRow).rawData ≠
      RData.null := by
  refine ⟨by decide, ?_⟩
  exact no_double_processing.1
    [⟨1, "j1", "t", "c", "l", "d", "serpapi", .payload "raw", none,
      some .sTrue, none, none, none, none, 0, 0⟩,
     ⟨2, "j2", "t", "c", "l", "d", "serpapi", .payload "raw", none,
      some .sPending, none, none, none, none, 0, 0⟩,
     ⟨3, "j3", "t", "c", "l", "d", "serpapi", .payload "raw", none,
      some .sFalse, none, none, none, none, 0, 0⟩] 10 _ (by decide)

/-- C8.  Enrichment retry: markJobError and markLinkedInProfileError reset
the record to isProcessed = "false" and record the error message in
processingError, so the patched record satisfies the selection filter of the
next process-unprocessed batch run whenever its rawData is not null. -/
theorem enrichment_retry :
    (∀ (db : List JobResultRow) (id : DocId) (err : String) (now : Time)
        (r : JobResultRow), r ∈ db → r.id = id →
        ({ r with processingError := some err, isProcessed := some .sFalse,
                  updatedAt := now } : JobResultRow) ∈ markJobError db id err now ∧
        ({ r with processingError := some err, isProcessed := some .sFalse,
                  updatedAt := now } : JobResultRow).isProcessed = some .sFalse ∧
        ({ r with processingError := some err, isProcessed := some .sFalse,
                  updatedAt := now } : JobResultRow).processingError = some err ∧
        (r.rawData ≠ RData.null →
          unprocessedJobPred
            ({ r with processingError := some err, isProcessed := some .sFalse,
                      updatedAt := now }) = true)) ∧
    (∀ (db : List LinkedInProfileRow) (id : DocId) (err : String) (now : Time)
        (r : LinkedInProfileRow), r ∈ db → r.id = id →
        ({ r with processingError := some err, isProcessed := some .sFalse,
                  updatedAt := now } : LinkedInProfileRow) ∈
          markLinkedInProfileError db id err now ∧
        ({ r with processingError := some err, isProcessed := some .sFalse,
                  updatedAt := now } : LinkedInProfileRow).isProcessed =
          some .sFalse ∧
        ({ r with processingError := some err, isProcessed := some .sFalse,
                  updatedAt := now } : LinkedInProfileRow).processingError =
          some err ∧
        (r.rawData ≠ some RData.null →
          unprocessedProfilePred
            ({ r with processingError := some err, isProcessed := some .sFalse,
                      updatedAt := now }) = true)) := by
  constructor
  · intro db id err now r hr hid
    refine ⟨?_, ?_, ?_, ?_⟩
    · simp only [markJobError]
      exact List.mem_map.mpr ⟨r, hr, by rw [if_pos hid]⟩
    · rfl
    · rfl
    · intro hraw
      simp [unprocessedJobPred, hraw]
  · intro db id err now r hr hid
    refine ⟨?_, ?_, ?_, ?_⟩
    · simp only [markLinkedInProfileError]
      exact List.mem_map.mpr ⟨r, hr, by rw [if_pos hid]⟩
    · rfl
    · rfl
    · intro hraw
      simp [unprocessedProfilePred, hraw]

/-- C8 witness: marking a concrete failed job resets it to "false" with the
error recorded, and it satisfies the batch selection filter again. -/
theorem enrichment_retry_witness :
    (⟨7, "j7", "t", "c", "l", "d", "serpapi", .payload "raw", none,
       some .sPending, none, none, none, none, 0, 0⟩ : JobResultRow) ∈
      [⟨7, "j7", "t", "c", "l", "d", "serpapi", .payload "raw", none,
        some .sPending, none, none, none, none, 0, 0⟩] ∧
    ({ (⟨7, "j7", "t", "c", "l", "d", "serpapi", .payload "raw", none,
         some .sPending, none, none, none, none, 0, 0⟩ : JobResultRow) with
       processingError := some "boom", isProcessed := some PState.sFalse,
       updatedAt := (5 : Time) } : JobResultRow) ∈
      markJobError
        [⟨7, "j7", "t", "c", "l", "d", "serpapi", .payload "raw", none,
          some .sPending, none, none, none, none, 0, 0⟩] 7 "boom" 5 := by
  refine ⟨by decide, ?_⟩
  exact (enrichment_retry.1
    [⟨7, "j7", "t", "c", "l", "d", "serpapi", .payload "raw", none,
      some .sPending, none, none, none, none, 0, 0⟩] 7 "boom" 5
    ⟨7, "j7", "t", "c", "l", "d", "serpapi", .payload "raw", none,
      some .sPending, none, none, none, none, 0, 0⟩ (by decide) rfl).1

/-! ### Lemmas for the dedup-store and validation claims -/

theorem orUndefined_eq_self {cc : Option String} (h : cc ≠ some "") :
    orUndefined cc = cc := by
  cases cc with
  | none => rfl
  | some s =>
      simp only [orUndefined]
      rw [if_neg]
      intro hs
      exact h (by rw [hs])

theorem validate_ok {p : JobSearchParams} {uid : Option String}
    {vp : JobSearchArgs} (h : validateJobSearchParams p uid = .ok vp) :
    vp = ⟨p.query, p.location, 30, p.countryCode, uid⟩ := by
  unfold validateJobSearchParams at h
  split at h
  · exact Except.noConfusion h
  · split at h
    · exact Except.noConfusion h
    · split at h
      · split at h
        · exact Except.noConfusion h
        · exact (Except.ok.inj h).symm
      · exact (Except.ok.inj h).symm

/-- C9 counterexample.  The store-if-not-exists operation does not always
dedup by (jobId, provider, countryCode): the insert stores countryCode
verbatim while the lookup normalises the empty string to undefined, so two
raw candidates with the same jobId, provider and countryCode = "" (discovered
by two different SearchUnits, ids 100 and 200) are BOTH persisted — the
second call returns isNew = true and the table ends with two rows, contrary
to the claim that only one ResultRecord is persisted and the second call
returns the existing id with isNew = false. -/
theorem saveJobIfNotExists_empty_country_dup :
    (let a1 : SaveJobArgs :=
      ⟨"job-1", "t", "c", "l", "d", "serpapi", .payload "raw", 100, none, some ""⟩
     let a2 : SaveJobArgs :=
      ⟨"job-1", "t", "c", "l", "d", "serpapi", .payload "raw", 200, none, some ""⟩
     let o1 := saveJobIfNotExists [] a1 10
     let o2 := saveJobIfNotExists o1.2 a2 20
     o1.1.2 = true ∧ o2.1.2 = true ∧ o2.2.length = 2) := by
  decide

/-- C9 (amended).  ResultRecord dedup by provider identity, for any
countryCode other than the empty string: starting from a table with no row
for the key (jobId, provider, countryCode), a first saveJobIfNotExists call
inserts the record (isNew = true), and a second call with the same key — even
from a different SearchUnit — returns the first call's id with isNew = false,
inserts nothing, and exactly one matching ResultRecord is persisted.
(The empty-string countryCode escapes dedup because the insert stores it
verbatim while the lookup normalises it to undefined; see the
counterexample.) -/
theorem resultRecord_dedup (db : List JobResultRow) (a1 a2 : SaveJobArgs)
    (now1 now2 : Time)
    (hj : a2.jobId = a1.jobId) (hp : a2.provider = a1.provider)
    (hcc : a2.countryCode = a1.countryCode) (hne : a1.countryCode ≠ some "")
    (hdb : ∀ r ∈ db,
      jobResultMatches a1.jobId a1.provider (orUndefined a1.countryCode) r = false) :
    (saveJobIfNotExists db a1 now1).1.2 = true ∧
    (saveJobIfNotExists (saveJobIfNotExists db a1 now1).2 a2 now2).1.2 = false ∧
    (saveJobIfNotExists (saveJobIfNotExists db a1 now1).2 a2 now2).1.1 =
      (saveJobIfNotExists db a1 now1).1.1 ∧
    (saveJobIfNotExists (saveJobIfNotExists db a1 now1).2 a2 now2).2 =
      (saveJobIfNotExists db a1 now1).2 ∧
    ((saveJobIfNotExists (saveJobIfNotExists db a1 now1).2 a2 now2).2.filter
      (jobResultMatches a1.jobId a1.provider (orUndefined a1.countryCode))).length
      = 1 := by
  have hfilter : db.filter
      (jobResultMatches a1.jobId a1.provider (orUndefined a1.countryCode)) = [] :=
    List.filter_eq_nil_iff.mpr (fun a ha => by simp [hdb a ha])
  have hnone : oldestJobResultMatching db a1.jobId a1.provider
      (orUndefined a1.countryCode) = none := by
    simp [oldestJobResultMatching, hfilter]
  set nid := freshId (db.map (·.id)) with hnid
  have ho1 : saveJobIfNotExists db a1 now1 =
      ((nid, true), db ++ [newJobResultRow a1 nid now1]) := by
    simp [saveJobIfNotExists, hnone, hnid]
  have hnewmatch : jobResultMatches a1.jobId a1.provider
      (orUndefined a1.countryCode) (newJobResultRow a1 nid now1) = true := by
    simp [jobResultMatches, newJobResultRow, orUndefined_eq_self hne]
  have hkey2 : orUndefined a2.countryCode = orUndefined a1.countryCode := by
    rw [hcc]
  have hfilter2 : (db ++ [newJobResultRow a1 nid now1]).filter
      (jobResultMatches a1.jobId a1.provider (orUndefined a1.countryCode)) =
      [newJobResultRow a1 nid now1] := by
    rw [List.filter_append, hfilter]
    simp [hnewmatch]
  have ho2 : saveJobIfNotExists (db ++ [newJobResultRow a1 nid now1]) a2 now2 =
      ((nid, false), db ++ [newJobResultRow a1 nid now1]) := by
    have hfound : oldestJobResultMatching (db ++ [newJobResultRow a1 nid now1])
        a2.jobId a2.provider (orUndefined a2.countryCode) =
        some (newJobResultRow a1 nid now1) := by
      simp only [oldestJobResultMatching, hj, hp, hkey2, hfilter2]
      rfl
    simp only [saveJobIfNotExists, hfound]
    rfl
  have key : saveJobIfNotExists (saveJobIfNotExists db a1 now1).2 a2 now2 =
      ((nid, false), db ++ [newJobResultRow a1 nid now1]) := by
    rw [ho1]
    exact ho2
  refine ⟨by rw [ho1], by rw [key], by rw [key, ho1], by rw [key, ho1], ?_⟩
  rw [key]
  show ((db ++ [newJobResultRow a1 nid now1]).filter
    (jobResultMatches a1.jobId a1.provider (orUndefined a1.countryCode))).length = 1
  rw [hfilter2]
  rfl

/-- C9 witness: two concrete calls with the key (job-1, serpapi, gb) from an
empty table, issued by SearchUnits 100 and 200: the first inserts, the second
returns isNew = false. -/
theorem resultRecord_dedup_witness :
    ((some "gb" : Option String) ≠ some "") ∧
    (saveJobIfNotExists []
      ⟨"job-1", "t", "c", "l", "d", "serpapi", .payload "raw", 100, none,
        some "gb"⟩ 10).1.2 = true ∧
    (saveJobIfNotExists
      (saveJobIfNotExists []
        ⟨"job-1", "t", "c", "l", "d", "serpapi", .payload "raw", 100, none,
          some "gb"⟩ 10).2
      ⟨"job-1", "t", "c", "l", "d", "serpapi", .payload "raw", 200, none,
        some "gb"⟩ 20).1.2 = false :=
  ⟨by decide,
   (resultRecord_dedup []
      ⟨"job-1", "t", "c", "l", "d", "serpapi", .payload "raw", 100, none,
        some "gb"⟩
      ⟨"job-1", "t", "c", "l", "d", "serpapi", .payload "raw", 200, none,
        some "gb"⟩ 10 20 rfl rfl rfl (by decide) (by simp)).1,
   (resultRecord_dedup []
      ⟨"job-1", "t", "c", "l", "d", "serpapi", .payload "raw", 100, none,
        some "gb"⟩
      ⟨"job-1", "t", "c", "l", "d", "serpapi", .payload "raw", 200, none,
        some "gb"⟩ 10 20 rfl rfl rfl (by decide) (by simp)).2.1⟩

/-! ### Lemmas for searchJobs -/

theorem mem_updateJobSearchResults {db : List JobSearchRow} {id : DocId}
    {data : RData} {status : Status} {now : Time} {r : JobSearchRow}
    (h : r ∈ updateJobSearchResults db id data status now) :
    ∃ s ∈ db, r.numResults = s.numResults ∧ s.id = r.id ∧ (s.id ≠ id → r = s) := by
  obtain ⟨s, hs, heq⟩ := List.mem_map.mp h
  by_cases hc : s.id = id
  · rw [if_pos hc] at heq; subst heq
    exact ⟨s, hs, rfl, rfl, fun hn => absurd hc hn⟩
  · rw [if_neg hc] at heq; subst heq
    exact ⟨s, hs, rfl, rfl, fun _ => rfl⟩

/-- findOrCreateJobSearch either reuses an existing row (returning the table
unchanged and a complete or pending status) or appends exactly one fresh
pending row. -/
theorem findOrCreateJobSearch_cases (db : List JobSearchRow)
    (args : JobSearchArgs) (now : Time) :
    ((findOrCreateJobSearch db args now).2 = db ∧
      (findOrCreateJobSearch db args now).1.isExisting = true ∧
      ((findOrCreateJobSearch db args now).1.status = .complete ∨
        (findOrCreateJobSearch db args now).1.status = .pending)) ∨
    ((findOrCreateJobSearch db args now).2 =
        db ++ [newJobSearchRow args (freshId (db.map (·.id))) now] ∧
      (findOrCreateJobSearch db args now).1 =
        ⟨freshId (db.map (·.id)), false, .pending⟩) := by
  unfold findOrCreateJobSearch
  cases h : oldestJobSearchMatching db args.query args.location
      (orUndefined args.countryCode) args.numResults with
  | none => right; simp
  | some ex =>
      by_cases h1 : ex.status = .complete ∧
          now - twentyFourHoursMs < jsOrTime ex.updatedAt ex.createdAt
      · left; simp [h1]
      · by_cases h2 : ex.status = .pending ∧ truthyTimeGt ex.expiresAt now
        · left; simp [h1, h2]
        · right; simp [h1, h2]

/-- C10.  Parameter validation overwrites the requested numResults with the
constant 30 before the dedup key is computed: validateJobSearchParams returns
the caller's query, location and countryCode but always numResults = 30, and
consequently every jobsSearches row created by searchJobs — the rows whose
(query, location, countryCode, numResults) tuple is the job-search dedup
key — has numResults = 30, regardless of what the caller requested. -/
theorem numResults_forced_thirty :
    (∀ (p : JobSearchParams) (uid : Option String) (vp : JobSearchArgs),
        validateJobSearchParams p uid = .ok vp →
        vp.numResults = 30 ∧ vp.query = p.query ∧ vp.location = p.location ∧
          vp.countryCode = p.countryCode) ∧
    (∀ (dbS : List JobSearchRow) (dbR : List JobResultRow)
        (p : JobSearchParams) (uid : Option String) (now : Time)
        (fetcher : Except String (List RawJob)) (r : JobSearchRow),
        r ∈ (searchJobs dbS dbR p uid now fetcher).2.1 → r ∉ dbS →
        r.numResults = 30) := by
  constructor
  · intro p uid vp h
    rw [validate_ok h]
    exact ⟨rfl, rfl, rfl, rfl⟩
  · intro dbS dbR p uid now fetcher r hmem hnot
    unfold searchJobs at hmem
    cases hval : validateJobSearchParams p uid with
    | error e =>
        rw [hval] at hmem
        exact absurd hmem hnot
    | ok vp =>
        simp only [hval] at hmem
        have hvpn : vp.numResults = 30 := by rw [validate_ok hval]
        rcases findOrCreateJobSearch_cases dbS vp now with
          ⟨hdb, hex, hstat⟩ | ⟨hdb, hres⟩
        · rcases hstat with hc | hp2
          · rw [if_pos ⟨hex, hc⟩] at hmem
            rw [hdb] at hmem
            exact absurd hmem hnot
          · have hnc : ¬((findOrCreateJobSearch dbS vp now).1.isExisting = true ∧
                (findOrCreateJobSearch dbS vp now).1.status = .complete) := by
              intro hcon
              rw [hp2] at hcon
              cases hcon.2
            rw [if_neg hnc, if_pos ⟨hex, hp2⟩] at hmem
            rw [hdb] at hmem
            exact absurd hmem hnot
        · have hnc : ¬((findOrCreateJobSearch dbS vp now).1.isExisting = true ∧
              (findOrCreateJobSearch dbS vp now).1.status = .complete) := by
            intro hcon
            rw [hres] at hcon
            cases hcon.1
          have hnp : ¬((findOrCreateJobSearch dbS vp now).1.isExisting = true ∧
              (findOrCreateJobSearch dbS vp now).1.status = .pending) := by
            intro hcon
            rw [hres] at hcon
            cases hcon.1
          rw [if_neg hnc, if_neg hnp] at hmem
          have hfresh : freshId (dbS.map (·.id)) ∉ dbS.map (·.id) := freshId_not_mem
          have hmain : ∀ h2 : r ∈ updateJobSearchResults
              ((findOrCreateJobSearch dbS vp now).2)
              ((findOrCreateJobSearch dbS vp now).1.searchId)
              (.payload "job results") .complete now ∨ r ∈ updateJobSearchResults
              ((findOrCreateJobSearch dbS vp now).2)
              ((findOrCreateJobSearch dbS vp now).1.searchId)
              (.errorMsg "e") .failed now, True := fun _ => trivial
          clear hmain
          cases fetcher with
          | ok raws =>
              obtain ⟨s, hs, hnum, hsid, hcopy⟩ := mem_updateJobSearchResults hmem
              rw [hdb] at hs
              rcases List.mem_append.mp hs with hsdb | hsnew
              · by_cases hc2 : s.id = (findOrCreateJobSearch dbS vp now).1.searchId
                · rw [hres] at hc2
                  have hc3 : s.id = freshId (dbS.map (·.id)) := hc2
                  have hmm : s.id ∈ dbS.map (·.id) :=
                    List.mem_map_of_mem (·.id) hsdb
                  rw [hc3] at hmm
                  exact absurd hmm hfresh
                · rw [hcopy hc2] at hnot
                  exact absurd hsdb hnot
              · have hseq : s = newJobSearchRow vp (freshId (dbS.map (·.id))) now :=
                  List.mem_singleton.mp hsnew
                rw [hnum, hseq]
                exact hvpn
          | error e =>
              obtain ⟨s, hs, hnum, hsid, hcopy⟩ := mem_updateJobSearchResults hmem
              rw [hdb] at hs
              rcases List.mem_append.mp hs with hsdb | hsnew
              · by_cases hc2 : s.id = (findOrCreateJobSearch dbS vp now).1.searchId
                · rw [hres] at hc2
                  have hc3 : s.id = freshId (dbS.map (·.id)) := hc2
                  have hmm : s.id ∈ dbS.map (·.id) :=
                    List.mem_map_of_mem (·.id) hsdb
                  rw [hc3] at hmm
                  exact absurd hmm hfresh
                · rw [hcopy hc2] at hnot
                  exact absurd hsdb hnot
              · have hseq : s = newJobSearchRow vp (freshId (dbS.map (·.id))) now :=
                  List.mem_singleton.mp hsnew
                rw [hnum, hseq]
                exact hvpn

/-- C10 witness: a request asking for 5 results is validated to numResults =
30. -/
theorem numResults_forced_thirty_witness :
    validateJobSearchParams ⟨"engineer", "london", some 5, none⟩ none =
      .ok ⟨"engineer", "london", 30, none, none⟩ ∧
    (30 : Nat) = 30 ∧ "engineer" = "engineer" ∧ "london" = "london" ∧
    (none : Option String) = none :=
  ⟨by rfl,
   numResults_forced_thirty.1 ⟨"engineer", "london", some 5, none⟩ none
     ⟨"engineer", "london", 30, none, none⟩ (by rfl)⟩

/-! ### Lemmas for the staleness and expiry claims -/

theorem head?_mem_of_eq {α : Type} {l : List α} {a : α}
    (h : l.head? = some a) : a ∈ l := by
  cases l with
  | nil => cases h
  | cons x xs =>
      simp at h
      subst h
      exact List.mem_cons_self x xs

theorem getLast?_map_eq {α β : Type} (f : α → β) (l : List α) :
    (l.map f).getLast? = (l.getLast?).map f := List.getLast?_map f l

theorem newestResearchMatching_mem {db : List ResearchRow} {c p l : String}
    {t : RType} {u : ResearchRow}
    (h : newestResearchMatching db c p l t = some u) :
    u ∈ db ∧ researchMatches c p l t u = true := by
  unfold newestResearchMatching at h
  have hm := getLast?_mem_of_eq h
  exact ⟨(List.mem_filter.mp hm).1, (List.mem_filter.mp hm).2⟩

theorem newestResearchMatching_cleanup_eq {db : List ResearchRow}
    {c p l : String} {t : RType} {now : Time} {u : ResearchRow}
    (hfind : newestResearchMatching db c p l t = some u) :
    newestResearchMatching (cleanupExpiredEntries db now) c p l t =
      some (if u.status = .pending ∧ fieldLt u.expiresAt now then
        { u with status := .failed, updatedAt := now } else u) := by
  have hpres : ∀ a : ResearchRow, researchMatches c p l t
      (if a.status = .pending ∧ fieldLt a.expiresAt now then
        { a with status := .failed, updatedAt := now } else a) =
      researchMatches c p l t a := by
    intro a
    by_cases h : a.status = .pending ∧ fieldLt a.expiresAt now
    · rw [if_pos h]; rfl
    · rw [if_neg h]
  unfold newestResearchMatching cleanupExpiredEntries
  rw [filter_map_comm _ _ hpres, getLast?_map_eq]
  unfold newestResearchMatching at hfind
  rw [hfind]
  rfl

theorem cleanup_research_ids (db : List ResearchRow) (now : Time) :
    (cleanupExpiredEntries db now).map (·.id) = db.map (·.id) := by
  unfold cleanupExpiredEntries
  rw [List.map_map]
  apply List.map_congr_left
  intro a _
  by_cases h : a.status = .pending ∧ fieldLt a.expiresAt now
  · rw [Function.comp_apply, if_pos h]
  · rw [Function.comp_apply, if_neg h]

theorem mem_cleanup_research {db : List ResearchRow} {now : Time}
    {u : ResearchRow} (hu : u ∈ db)
    (hnp : ¬(u.status = .pending ∧ fieldLt u.expiresAt now)) :
    u ∈ cleanupExpiredEntries db now := by
  unfold cleanupExpiredEntries
  refine List.mem_map.mpr ⟨u, hu, ?_⟩
  rw [if_neg hnp]

/-- Research C2 helper: a subsequent performResearch on a complete unit whose
updatedAt (hence createdAt) is more than seven days old creates and returns a
brand-new pending unit and leaves the old row untouched. -/
theorem research_stale_refresh {db : List ResearchRow} {c p l : String}
    {t : RType} {uid : Option String} {now : Time} {u : ResearchRow}
    (hfind : newestResearchMatching db c p l t = some u)
    (hst : u.status = .complete)
    (hupd : u.updatedAt < now - sevenDaysMs)
    (hcu : u.createdAt ≤ u.updatedAt) :
    (performResearchSync db c p l t uid now).1.isExisting = false ∧
    (performResearchSync db c p l t uid now).1.status = .pending ∧
    (performResearchSync db c p l t uid now).1.reportId ∉ db.map (·.id) ∧
    (performResearchSync db c p l t uid now).1.reportId ≠ u.id ∧
    u ∈ (performResearchSync db c p l t uid now).2.1 := by
  have hnp : ¬(u.status = .pending ∧ fieldLt u.expiresAt now = true) := by
    intro hcon
    rw [hst] at hcon
    cases hcon.1
  have hclean : newestResearchMatching (cleanupExpiredEntries db now) c p l t =
      some u := by
    rw [newestResearchMatching_cleanup_eq hfind, if_neg hnp]
  have hold : u.createdAt < now - sevenDaysMs := lt_of_le_of_lt hcu hupd
  have hfe : findExistingResearch (cleanupExpiredEntries db now) c p l t now =
      some ⟨u, .complete, true⟩ := by
    simp [findExistingResearch, hclean, hst, hold]
  have hps : performResearchSync db c p l t uid now =
      (⟨freshId ((cleanupExpiredEntries db now).map (·.id)), .pending, false⟩,
       cleanupExpiredEntries db now ++
         [newResearchRow c p l t uid
           (freshId ((cleanupExpiredEntries db now).map (·.id))) now],
       some (freshId ((cleanupExpiredEntries db now).map (·.id)))) := by
    simp [performResearchSync, hfe, createPendingResearch]
  have hids : freshId ((cleanupExpiredEntries db now).map (·.id)) ∉
      db.map (·.id) := by
    rw [cleanup_research_ids]
    exact freshId_not_mem
  have humem : u ∈ db := (newestResearchMatching_mem hfind).1
  refine ⟨by rw [hps], by rw [hps], by rw [hps]; exact hids, ?_, ?_⟩
  · rw [hps]
    show freshId ((cleanupExpiredEntries db now).map (·.id)) ≠ u.id
    intro hcon
    apply hids
    rw [hcon]
    exact List.mem_map_of_mem (·.id) humem
  · rw [hps]
    exact List.mem_append.mpr (Or.inl (mem_cleanup_research humem hnp))

/-- Research C3 helper: a subsequent performResearch on a pending unit whose
expiresAt lies in the past flips the old row to failed (via the cleanup pass)
and creates and returns a brand-new pending unit. -/
theorem research_expired_refresh {db : List ResearchRow} {c p l : String}
    {t : RType} {uid : Option String} {now : Time} {u : ResearchRow} {e : Time}
    (hfind : newestResearchMatching db c p l t = some u)
    (hst : u.status = .pending) (hexp : u.expiresAt = some e)
    (helt : e < now) :
    (performResearchSync db c p l t uid now).1.isExisting = false ∧
    (performResearchSync db c p l t uid now).1.status = .pending ∧
    (performResearchSync db c p l t uid now).1.reportId ∉ db.map (·.id) ∧
    (performResearchSync db c p l t uid now).1.reportId ≠ u.id ∧
    ({ u with status := .failed, updatedAt := now } : ResearchRow) ∈
      (performResearchSync db c p l t uid now).2.1 ∧
    newResearchRow c p l t uid
        (freshId ((cleanupExpiredEntries db now).map (·.id))) now ∈
      (performResearchSync db c p l t uid now).2.1 := by
  have hcond : u.status = .pending ∧ fieldLt u.expiresAt now = true := by
    refine ⟨hst, ?_⟩
    rw [hexp]
    simp [fieldLt, helt]
  have hclean : newestResearchMatching (cleanupExpiredEntries db now) c p l t =
      some { u with status := .failed, updatedAt := now } := by
    rw [newestResearchMatching_cleanup_eq hfind, if_pos hcond]
  have hfe : findExistingResearch (cleanupExpiredEntries db now) c p l t now =
      some ⟨{ u with status := .failed, updatedAt := now }, .failed, false⟩ := by
    simp [findExistingResearch, hclean]
  have hps : performResearchSync db c p l t uid now =
      (⟨freshId ((cleanupExpiredEntries db now).map (·.id)), .pending, false⟩,
       cleanupExpiredEntries db now ++
         [newResearchRow c p l t uid
           (freshId ((cleanupExpiredEntries db now).map (·.id))) now],
       some (freshId ((cleanupExpiredEntries db now).map (·.id)))) := by
    simp [performResearchSync, hfe, createPendingResearch]
  have hids : freshId ((cleanupExpiredEntries db now).map (·.id)) ∉
      db.map (·.id) := by
    rw [cleanup_research_ids]
    exact freshId_not_mem
  have humem : u ∈ db := (newestResearchMatching_mem hfind).1
  have hflip : ({ u with status := .failed, updatedAt := now } : ResearchRow) ∈
      cleanupExpiredEntries db now := by
    unfold cleanupExpiredEntries
    refine List.mem_map.mpr ⟨u, humem, ?_⟩
    rw [if_pos hcond]
  refine ⟨by rw [hps], by rw [hps], by rw [hps]; exact hids, ?_, ?_, ?_⟩
  · rw [hps]
    show freshId ((cleanupExpiredEntries db now).map (·.id)) ≠ u.id
    intro hcon
    apply hids
    rw [hcon]
    exact List.mem_map_of_mem (·.id) humem
  · rw [hps]
    exact List.mem_append.mpr (Or.inl hflip)
  · rw [hps]
    exact List.mem_append.mpr (Or.inr (List.mem_singleton.mpr rfl))

/-! LinkedIn-search counterparts of the research lemmas. -/

theorem newestLinkedInSearchMatching_mem {db : List LinkedInSearchRow}
    {jt ul : String} {n : Nat} {u : LinkedInSearchRow}
    (h : newestLinkedInSearchMatching db jt ul n = some u) :
    u ∈ db ∧ linkedInSearchMatches jt ul n u = true := by
  unfold newestLinkedInSearchMatching at h
  have hm := getLast?_mem_of_eq h
  exact ⟨(List.mem_filter.mp hm).1, (List.mem_filter.mp hm).2⟩

theorem newestLinkedInSearchMatching_cleanup_eq {db : List LinkedInSearchRow}
    {jt ul : String} {n : Nat} {now : Time} {u : LinkedInSearchRow}
    (hfind : newestLinkedInSearchMatching db jt ul n = some u) :
    newestLinkedInSearchMatching (cleanupExpiredLinkedInEntries db now) jt ul n =
      some (if u.status = .pending ∧ fieldLt u.expiresAt now then
        { u with status := .failed, updatedAt := now } else u) := by
  have hpres : ∀ a : LinkedInSearchRow, linkedInSearchMatches jt ul n
      (if a.status = .pending ∧ fieldLt a.expiresAt now then
        { a with status := .failed, updatedAt := now } else a) =
      linkedInSearchMatches jt ul n a := by
    intro a
    by_cases h : a.status = .pending ∧ fieldLt a.expiresAt now
    · rw [if_pos h]; rfl
    · rw [if_neg h]
  unfold newestLinkedInSearchMatching cleanupExpiredLinkedInEntries
  rw [filter_map_comm _ _ hpres, getLast?_map_eq]
  unfold newestLinkedInSearchMatching at hfind
  rw [hfind]
  rfl

theorem cleanup_linkedin_ids (db : List LinkedInSearchRow) (now : Time) :
    (cleanupExpiredLinkedInEntries db now).map (·.id) = db.map (·.id) := by
  unfold cleanupExpiredLinkedInEntries
  rw [List.map_map]
  apply List.map_congr_left
  intro a _
  by_cases h : a.status = .pending ∧ fieldLt a.expiresAt now
  · rw [Function.comp_apply, if_pos h]
  · rw [Function.comp_apply, if_neg h]

theorem mem_cleanup_linkedin {db : List LinkedInSearchRow} {now : Time}
    {u : LinkedInSearchRow} (hu : u ∈ db)
    (hnp : ¬(u.status = .pending ∧ fieldLt u.expiresAt now)) :
    u ∈ cleanupExpiredLinkedInEntries db now := by
  unfold cleanupExpiredLinkedInEntries
  refine List.mem_map.mpr ⟨u, hu, ?_⟩
  rw [if_neg hnp]

/-- LinkedIn C2 helper: searchLinkedInProfessionals on a complete search whose
updatedAt (hence createdAt) is more than 24 hours old creates and returns a
brand-new pending search and leaves the old row untouched. -/
theorem linkedin_stale_refresh {db : List LinkedInSearchRow} {jt ul : String}
    {n : Nat} {uid : Option String} {now : Time} {u : LinkedInSearchRow}
    (hfind : newestLinkedInSearchMatching db jt ul n = some u)
    (hst : u.status = .complete)
    (hupd : u.updatedAt < now - twentyFourHoursMs)
    (hcu : u.createdAt ≤ u.updatedAt) :
    (searchLinkedInSync db jt ul n uid now).1.isExisting = false ∧
    (searchLinkedInSync db jt ul n uid now).1.status = .pending ∧
    (searchLinkedInSync db jt ul n uid now).1.reportId ∉ db.map (·.id) ∧
    (searchLinkedInSync db jt ul n uid now).1.reportId ≠ u.id ∧
    u ∈ (searchLinkedInSync db jt ul n uid now).2.1 := by
  have hnp : ¬(u.status = .pending ∧ fieldLt u.expiresAt now = true) := by
    intro hcon
    rw [hst] at hcon
    cases hcon.1
  have hclean : newestLinkedInSearchMatching
      (cleanupExpiredLinkedInEntries db now) jt ul n = some u := by
    rw [newestLinkedInSearchMatching_cleanup_eq hfind, if_neg hnp]
  have hold : u.createdAt < now - twentyFourHoursMs := lt_of_le_of_lt hcu hupd
  have hfe : findExistingLinkedInSearch (cleanupExpiredLinkedInEntries db now)
      jt ul n now = some ⟨u, .complete, true⟩ := by
    simp [findExistingLinkedInSearch, hclean, hst, hold]
  have hps : searchLinkedInSync db jt ul n uid now =
      (⟨freshId ((cleanupExpiredLinkedInEntries db now).map (·.id)),
         .pending, false⟩,
       cleanupExpiredLinkedInEntries db now ++
         [newLinkedInSearchRow jt ul n uid
           (freshId ((cleanupExpiredLinkedInEntries db now).map (·.id))) now],
       some (freshId ((cleanupExpiredLinkedInEntries db now).map (·.id)))) := by
    simp [searchLinkedInSync, hfe, createPendingLinkedInSearch]
  have hids : freshId ((cleanupExpiredLinkedInEntries db now).map (·.id)) ∉
      db.map (·.id) := by
    rw [cleanup_linkedin_ids]
    exact freshId_not_mem
  have humem : u ∈ db := (newestLinkedInSearchMatching_mem hfind).1
  refine ⟨by rw [hps], by rw [hps], by rw [hps]; exact hids, ?_, ?_⟩
  · rw [hps]
    show freshId ((cleanupExpiredLinkedInEntries db now).map (·.id)) ≠ u.id
    intro hcon
    apply hids
    rw [hcon]
    exact List.mem_map_of_mem (·.id) humem
  · rw [hps]
    exact List.mem_append.mpr (Or.inl (mem_cleanup_linkedin humem hnp))

/-! Job-search counterparts. -/

theorem oldestJobSearchMatching_mem {db : List JobSearchRow} {q l : String}
    {cc : Option String} {n : Nat} {u : JobSearchRow}
    (h : oldestJobSearchMatching db q l cc n = some u) :
    u ∈ db ∧ jobSearchMatches q l cc n u = true := by
  unfold oldestJobSearchMatching at h
  have hm := head?_mem_of_eq h
  exact ⟨(List.mem_filter.mp hm).1, (List.mem_filter.mp hm).2⟩

/-- When the row found by the (oldest-first) lookup is neither a fresh
complete search nor an unexpired pending search, findOrCreateJobSearch
appends a fresh pending row. -/
theorem findOrCreateJobSearch_creates {db : List JobSearchRow}
    {args : JobSearchArgs} {now : Time} {u : JobSearchRow}
    (hfind : oldestJobSearchMatching db args.query args.location
      (orUndefined args.countryCode) args.numResults = some u)
    (hnc : ¬(u.status = .complete ∧
      now - twentyFourHoursMs < jsOrTime u.updatedAt u.createdAt))
    (hnp : ¬(u.status = .pending ∧ truthyTimeGt u.expiresAt now = true)) :
    findOrCreateJobSearch db args now =
      (⟨freshId (db.map (·.id)), false, .pending⟩,
        db ++ [newJobSearchRow args (freshId (db.map (·.id))) now]) := by
  simp only [findOrCreateJobSearch, hfind]
  rw [if_neg hnc, if_neg hnp]

/-- Jobs C2 helper: findOrCreateJobSearch on a complete search whose
updatedAt (hence createdAt and hence updatedAt || createdAt) is more than 24
hours old creates and returns a brand-new pending search and leaves the old
row untouched. -/
theorem jobsearch_stale_refresh {db : List JobSearchRow} {args : JobSearchArgs}
    {now : Time} {u : JobSearchRow}
    (hfind : oldestJobSearchMatching db args.query args.location
      (orUndefined args.countryCode) args.numResults = some u)
    (hst : u.status = .complete)
    (hupd : u.updatedAt < now - twentyFourHoursMs)
    (hcu : u.createdAt ≤ u.updatedAt) :
    (findOrCreateJobSearch db args now).1.isExisting = false ∧
    (findOrCreateJobSearch db args now).1.status = .pending ∧
    (findOrCreateJobSearch db args now).1.searchId ∉ db.map (·.id) ∧
    (findOrCreateJobSearch db args now).1.searchId ≠ u.id ∧
    u ∈ (findOrCreateJobSearch db args now).2 := by
  have hjs : jsOrTime u.updatedAt u.createdAt ≤ u.updatedAt := by
    unfold jsOrTime
    split_ifs with h0
    · exact hcu
    · exact le_refl _
  have hnc : ¬(u.status = .complete ∧
      now - twentyFourHoursMs < jsOrTime u.updatedAt u.createdAt) := by
    intro hcon
    have h2 := lt_of_lt_of_le hcon.2 hjs
    exact absurd h2 (lt_asymm hupd)
  have hnp : ¬(u.status = .pending ∧ truthyTimeGt u.expiresAt now = true) := by
    intro hcon
    rw [hst] at hcon
    cases hcon.1
  have heq := findOrCreateJobSearch_creates hfind hnc hnp
  have humem : u ∈ db := (oldestJobSearchMatching_mem hfind).1
  refine ⟨by rw [heq], by rw [heq], by rw [heq]; exact freshId_not_mem, ?_, ?_⟩
  · rw [heq]
    show freshId (db.map (·.id)) ≠ u.id
    intro hcon
    apply @freshId_not_mem (db.map (·.id))
    rw [hcon]
    exact List.mem_map_of_mem (·.id) humem
  · rw [heq]
    exact List.mem_append.mpr (Or.inl humem)

/-- Jobs C3 helper: findOrCreateJobSearch on a pending search whose expiresAt
lies in the past creates and returns a brand-new pending search rather than
returning the expired one. -/
theorem jobsearch_expired_refresh {db : List JobSearchRow}
    {args : JobSearchArgs} {now : Time} {u : JobSearchRow} {e : Time}
    (hfind : oldestJobSearchMatching db args.query args.location
      (orUndefined args.countryCode) args.numResults = some u)
    (hst : u.status = .pending) (hexp : u.expiresAt = some e)
    (helt : e < now) :
    (findOrCreateJobSearch db args now).1.isExisting = false ∧
    (findOrCreateJobSearch db args now).1.status = .pending ∧
    (findOrCreateJobSearch db args now).1.searchId ∉ db.map (·.id) ∧
    (findOrCreateJobSearch db args now).1.searchId ≠ u.id ∧
    newJobSearchRow args (freshId (db.map (·.id))) now ∈
      (findOrCreateJobSearch db args now).2 := by
  have hnc : ¬(u.status = .complete ∧
      now - twentyFourHoursMs < jsOrTime u.updatedAt u.createdAt) := by
    intro hcon
    rw [hst] at hcon
    cases hcon.1
  have hnp : ¬(u.status = .pending ∧ truthyTimeGt u.expiresAt now = true) := by
    intro hcon
    have h2 := hcon.2
    rw [hexp] at h2
    have h3 : (e != 0 && decide (now < e)) = true := h2
    have h4 := (Bool.and_eq_true _ _).mp h3
    have h5 : now < e := of_decide_eq_true h4.2
    exact absurd h5 (lt_asymm helt)
  have heq := findOrCreateJobSearch_creates hfind hnc hnp
  have humem : u ∈ db := (oldestJobSearchMatching_mem hfind).1
  refine ⟨by rw [heq], by rw [heq], by rw [heq]; exact freshId_not_mem, ?_, ?_⟩
  · rw [heq]
    show freshId (db.map (·.id)) ≠ u.id
    intro hcon
    apply @freshId_not_mem (db.map (·.id))
    rw [hcon]
    exact List.mem_map_of_mem (·.id) humem
  · rw [heq]
    exact List.mem_append.mpr (Or.inr (List.mem_singleton.mpr rfl))

/-- C2.  Staleness forces refresh: in each of the three domains, a complete
SearchUnit whose updatedAt is older than the domain staleness threshold
(seven days for research, 24 hours for LinkedIn and job searches) is not
returned by a subsequent find-or-create call with the same parameters — the
call creates and returns a brand-new unit id and the old row is left in the
table unmodified.  The hypotheses say that the unit is the one examined by
the code's lookup (the newest match for research and LinkedIn, the oldest for
findOrCreateJobSearch) and that createdAt ≤ updatedAt (true of every row the
code writes, since updatedAt is set to the current time at creation and on
every later patch); the source actually compares createdAt against the
threshold in the research and LinkedIn lookups, which is a weaker condition
than the claim needs, hence the invariant hypothesis. -/
theorem staleness_forces_refresh :
    (∀ (db : List ResearchRow) (c p l : String) (t : RType)
        (uid : Option String) (now : Time) (u : ResearchRow),
        newestResearchMatching db c p l t = some u →
        u.status = .complete → u.updatedAt < now - sevenDaysMs →
        u.createdAt ≤ u.updatedAt →
        (performResearchSync db c p l t uid now).1.isExisting = false ∧
        (performResearchSync db c p l t uid now).1.status = .pending ∧
        (performResearchSync db c p l t uid now).1.reportId ∉ db.map (·.id) ∧
        (performResearchSync db c p l t uid now).1.reportId ≠ u.id ∧
        u ∈ (performResearchSync db c p l t uid now).2.1) ∧
    (∀ (db : List LinkedInSearchRow) (jt ul : String) (n : Nat)
        (uid : Option String) (now : Time) (u : LinkedInSearchRow),
        newestLinkedInSearchMatching db jt ul n = some u →
        u.status = .complete → u.updatedAt < now - twentyFourHoursMs →
        u.createdAt ≤ u.updatedAt →
        (searchLinkedInSync db jt ul n uid now).1.isExisting = false ∧
        (searchLinkedInSync db jt ul n uid now).1.status = .pending ∧
        (searchLinkedInSync db jt ul n uid now).1.reportId ∉ db.map (·.id) ∧
        (searchLinkedInSync db jt ul n uid now).1.reportId ≠ u.id ∧
        u ∈ (searchLinkedInSync db jt ul n uid now).2.1) ∧
    (∀ (db : List JobSearchRow) (args : JobSearchArgs) (now : Time)
        (u : JobSearchRow),
        oldestJobSearchMatching db args.query args.location
          (orUndefined args.countryCode) args.numResults = some u →
        u.status = .complete → u.updatedAt < now - twentyFourHoursMs →
        u.createdAt ≤ u.updatedAt →
        (findOrCreateJobSearch db args now).1.isExisting = false ∧
        (findOrCreateJobSearch db args now).1.status = .pending ∧
        (findOrCreateJobSearch db args now).1.searchId ∉ db.map (·.id) ∧
        (findOrCreateJobSearch db args now).1.searchId ≠ u.id ∧
        u ∈ (findOrCreateJobSearch db args now).2) := by
  refine ⟨?_, ?_, ?_⟩
  · intro db c p l t uid now u h1 h2 h3 h4
    exact research_stale_refresh h1 h2 h3 h4
  · intro db jt ul n uid now u h1 h2 h3 h4
    exact linkedin_stale_refresh h1 h2 h3 h4
  · intro db args now u h1 h2 h3 h4
    exact jobsearch_stale_refresh h1 h2 h3 h4

/-- C2 witness: a job search completed at time 2000 queried at time 90000000
(more than 24 hours later) yields a fresh unit, not id 1. -/
theorem staleness_forces_refresh_witness :
    (oldestJobSearchMatching
      [⟨1, "engineer", "london", 30, none, .payload "x", .complete, none,
        none, 1000, 2000⟩] "engineer" "london" (orUndefined none) 30 =
      some ⟨1, "engineer", "london", 30, none, .payload "x", .complete, none,
        none, 1000, 2000⟩) ∧
    (2000 : Time) < 90000000 - twentyFourHoursMs ∧
    (findOrCreateJobSearch
      [⟨1, "engineer", "london", 30, none, .payload "x", .complete, none,
        none, 1000, 2000⟩] ⟨"engineer", "london", 30, none, none⟩
      90000000).1.isExisting = false ∧
    (findOrCreateJobSearch
      [⟨1, "engineer", "london", 30, none, .payload "x", .complete, none,
        none, 1000, 2000⟩] ⟨"engineer", "london", 30, none, none⟩
      90000000).1.searchId ≠
      (⟨1, "engineer", "london", 30, none, .payload "x", .complete, none,
        none, 1000, 2000⟩ : JobSearchRow).id :=
  ⟨by decide, by decide,
   (staleness_forces_refresh.2.2
     [⟨1, "engineer", "london", 30, none, .payload "x", .complete, none,
       none, 1000, 2000⟩] ⟨"engineer", "london", 30, none, none⟩ 90000000
     ⟨1, "engineer", "london", 30, none, .payload "x", .complete, none,
       none, 1000, 2000⟩ (by decide) (by decide) (by decide) (by decide)).1,
   (staleness_forces_refresh.2.2
     [⟨1, "engineer", "london", 30, none, .payload "x", .complete, none,
       none, 1000, 2000⟩] ⟨"engineer", "london", 30, none, none⟩ 90000000
     ⟨1, "engineer", "london", 30, none, .payload "x", .complete, none,
       none, 1000, 2000⟩ (by decide) (by decide) (by decide)
       (by decide)).2.2.2.1⟩

/-- C3.  Expiry forces refresh: a pending SearchUnit whose expiresAt lies in
the past is treated as failed by a subsequent find-or-create call with the
same parameters, which creates and returns a brand-new pending unit instead
of returning the expired unit's id.  For research, performResearch first runs
the cleanup pass which hard-writes the expired row to failed, and the
read-time view also reports it as failed; for job searches the expired row is
simply not reused.  The hypotheses say the unit is the one the code's lookup
examines. -/
theorem expiry_forces_refresh :
    (∀ (db : List ResearchRow) (c p l : String) (t : RType)
        (uid : Option String) (now : Time) (u : ResearchRow) (e : Time),
        newestResearchMatching db c p l t = some u →
        u.status = .pending → u.expiresAt = some e → e < now →
        (performResearchSync db c p l t uid now).1.isExisting = false ∧
        (performResearchSync db c p l t uid now).1.status = .pending ∧
        (performResearchSync db c p l t uid now).1.reportId ∉ db.map (·.id) ∧
        (performResearchSync db c p l t uid now).1.reportId ≠ u.id ∧
        ({ u with status := .failed, updatedAt := now } : ResearchRow) ∈
          (performResearchSync db c p l t uid now).2.1 ∧
        newResearchRow c p l t uid
            (freshId ((cleanupExpiredEntries db now).map (·.id))) now ∈
          (performResearchSync db c p l t uid now).2.1) ∧
    (∀ (db : List JobSearchRow) (args : JobSearchArgs) (now : Time)
        (u : JobSearchRow) (e : Time),
        oldestJobSearchMatching db args.query args.location
          (orUndefined args.countryCode) args.numResults = some u →
        u.status = .pending → u.expiresAt = some e → e < now →
        (findOrCreateJobSearch db args now).1.isExisting = false ∧
        (findOrCreateJobSearch db args now).1.status = .pending ∧
        (findOrCreateJobSearch db args now).1.searchId ∉ db.map (·.id) ∧
        (findOrCreateJobSearch db args now).1.searchId ≠ u.id ∧
        newJobSearchRow args (freshId (db.map (·.id))) now ∈
          (findOrCreateJobSearch db args now).2) := by
  constructor
  · intro db c p l t uid now u e h1 h2 h3 h4
    exact research_expired_refresh h1 h2 h3 h4
  · intro db args now u e h1 h2 h3 h4
    exact jobsearch_expired_refresh h1 h2 h3 h4

/-- C3 witness: a job search created at time 1000 with expiresAt 301000,
queried at time 400000 while still pending in storage, yields a fresh unit
(Scenario D of the specification). -/
theorem expiry_forces_refresh_witness :
    (oldestJobSearchMatching
      [⟨1, "engineer", "london", 30, none, .null, .pending, some 301000,
        none, 1000, 1000⟩] "engineer" "london" (orUndefined none) 30 =
      some ⟨1, "engineer", "london", 30, none, .null, .pending, some 301000,
        none, 1000, 1000⟩) ∧
    (301000 : Time) < 400000 ∧
    (findOrCreateJobSearch
      [⟨1, "engineer", "london", 30, none, .null, .pending, some 301000,
        none, 1000, 1000⟩] ⟨"engineer", "london", 30, none, none⟩
      400000).1.isExisting = false ∧
    (findOrCreateJobSearch
      [⟨1, "engineer", "london", 30, none, .null, .pending, some 301000,
        none, 1000, 1000⟩] ⟨"engineer", "london", 30, none, none⟩
      400000).1.searchId ≠
      (⟨1, "engineer", "london", 30, none, .null, .pending, some 301000,
        none, 1000, 1000⟩ : JobSearchRow).id :=
  ⟨by decide, by decide,
   (expiry_forces_refresh.2
     [⟨1, "engineer", "london", 30, none, .null, .pending, some 301000,
       none, 1000, 1000⟩] ⟨"engineer", "london", 30, none, none⟩ 400000
     ⟨1, "engineer", "london", 30, none, .null, .pending, some 301000,
       none, 1000, 1000⟩ 301000 (by decide) (by decide) (by decide)
       (by decide)).1,
   (expiry_forces_refresh.2
     [⟨1, "engineer", "london", 30, none, .null, .pending, some 301000,
       none, 1000, 1000⟩] ⟨"engineer", "london", 30, none, none⟩ 400000
     ⟨1, "engineer", "london", 30, none, .null, .pending, some 301000,
       none, 1000, 1000⟩ 301000 (by decide) (by decide) (by decide)
       (by decide)).2.2.2.1⟩

/-! ### Lemmas for the background-failure claim -/

theorem mem_updateResearchReport_patched {db : List ResearchRow} {id : DocId}
    {data : RData} {status : Status} {now : Time} {r : ResearchRow}
    (hr : r ∈ db) (hid : r.id = id) :
    ({ r with data := data, status := status, updatedAt := now } : ResearchRow) ∈
      updateResearchReport db id data status now := by
  unfold updateResearchReport
  refine List.mem_map.mpr ⟨r, hr, ?_⟩
  rw [if_pos hid]

theorem mem_updateJobSearchResults_patched {db : List JobSearchRow} {id : DocId}
    {data : RData} {status : Status} {now : Time} {r : JobSearchRow}
    (hr : r ∈ db) (hid : r.id = id) :
    ({ r with data := data, status := status, updatedAt := now,
              expiresAt := none } : JobSearchRow) ∈
      updateJobSearchResults db id data status now := by
  unfold updateJobSearchResults
  refine List.mem_map.mpr ⟨r, hr, ?_⟩
  rw [if_pos hid]

/-- Whenever performResearchSync schedules a background task, the response it
has already handed to the caller is a fresh pending unit, and the table holds
the new pending row the task will later resolve. -/
theorem performResearchSync_task_some {db : List ResearchRow} {c p l : String}
    {t : RType} {uid : Option String} {now : Time} {resp : ResearchResponse}
    {db1 : List ResearchRow} {rid : DocId}
    (h : performResearchSync db c p l t uid now = (resp, db1, some rid)) :
    resp = ⟨rid, .pending, false⟩ ∧
    rid = freshId ((cleanupExpiredEntries db now).map (·.id)) ∧
    db1 = cleanupExpiredEntries db now ++ [newResearchRow c p l t uid rid now] := by
  unfold performResearchSync at h
  split at h
  · rename_i f heq
    match hv : f.viewStatus with
    | .complete =>
        rw [hv] at h
        by_cases hs : f.isStale = true
        · rw [if_pos hs] at h
          simp only [createPendingResearch] at h
          injection h with h1 h23
          injection h23 with h2 h3
          have hrid := Option.some.inj h3
          refine ⟨?_, hrid.symm, ?_⟩
          · rw [← h1, hrid]
          · rw [← h2, hrid]
        · rw [if_neg hs] at h
          injection h with h1 h23
          injection h23 with h2 h3
          exact Option.noConfusion h3
    | .pending =>
        rw [hv] at h
        injection h with h1 h23
        injection h23 with h2 h3
        exact Option.noConfusion h3
    | .failed =>
        rw [hv] at h
        simp only [createPendingResearch] at h
        injection h with h1 h23
        injection h23 with h2 h3
        have hrid := Option.some.inj h3
        refine ⟨?_, hrid.symm, ?_⟩
        · rw [← h1, hrid]
        · rw [← h2, hrid]
  · simp only [createPendingResearch] at h
    injection h with h1 h23
    injection h23 with h2 h3
    have hrid := Option.some.inj h3
    refine ⟨?_, hrid.symm, ?_⟩
    · rw [← h1, hrid]
    · rw [← h2, hrid]

/-- C4 counterexample.  In the job-search domain the claim's final clause —
that the original caller has already received a pending response before the
background work ran — is false: searchJobs awaits the provider fetch inside
the request, so with a throwing fetcher the caller's one and only response
carries status failed, not pending.  Concretely, from empty tables, a fresh
search whose fetch throws yields a response with status failed (and the
new unit is marked failed in the table); the caller never holds a pending
response. -/
theorem searchJobs_failed_not_pending :
    (searchJobs [] [] ⟨"engineer", "london", none, none⟩ none 10000
      (.error "provider down")).1.status = .failed ∧
    ¬((searchJobs [] [] ⟨"engineer", "london", none, none⟩ none 10000
      (.error "provider down")).1.status = .pending) ∧
    (∃ r ∈ (searchJobs [] [] ⟨"engineer", "london", none, none⟩ none 10000
      (.error "provider down")).2.1,
      r.status = .failed ∧ r.data = .errorMsg "provider down") := by
  decide

/-- C4 (amended).  Background failure semantics: any exception thrown during
the provider fetch or background execution is caught and converted into
status = failed on the SearchUnit, and never escapes to the original caller
(both orchestration functions are total in the embedding: the throwing fetch
is a value they consume).  In the research domain the caller has already
received the pending response before the background task runs — whenever
performResearchSync schedules a task, its response is pending with the task's
id, and the background execution with a throwing fetch leaves that unit
failed with the error recorded.  In the job-search domain the fetch is
awaited within the request, and the caller receives status failed directly,
with the newly created unit marked failed in the table. -/
theorem background_failure_semantics :
    (∀ (db : List ResearchRow) (c p l : String) (t : RType)
        (uid : Option String) (now : Time) (err : String) (now2 : Time)
        (resp : ResearchResponse) (db1 : List ResearchRow) (rid : DocId),
        performResearchSync db c p l t uid now = (resp, db1, some rid) →
        resp.status = .pending ∧ resp.reportId = rid ∧ resp.isExisting = false ∧
        (∃ r ∈ researchBackground db1 rid (.error err) now2,
          r.id = rid ∧ r.status = .failed ∧ r.data = .errorMsg err)) ∧
    (∀ (dbS : List JobSearchRow) (dbR : List JobResultRow)
        (p : JobSearchParams) (uid : Option String) (now : Time) (err : String)
        (vp : JobSearchArgs),
        validateJobSearchParams p uid = .ok vp →
        (findOrCreateJobSearch dbS vp now).1.isExisting = false →
        (searchJobs dbS dbR p uid now (.error err)).1.status = .failed ∧
        (∃ r ∈ (searchJobs dbS dbR p uid now (.error err)).2.1,
          r.id = (searchJobs dbS dbR p uid now (.error err)).1.searchId ∧
          r.status = .failed ∧ r.data = .errorMsg err)) := by
  constructor
  · intro db c p l t uid now err now2 resp db1 rid h
    obtain ⟨hresp, hrid, hdb1⟩ := performResearchSync_task_some h
    refine ⟨by rw [hresp], by rw [hresp], by rw [hresp], ?_⟩
    have hnew : newResearchRow c p l t uid rid now ∈ db1 := by
      rw [hdb1]
      exact List.mem_append.mpr (Or.inr (List.mem_singleton.mpr rfl))
    have hpatched :=
      @mem_updateResearchReport_patched db1 rid (RData.errorMsg err)
        Status.failed now2 (newResearchRow c p l t uid rid now) hnew rfl
    exact ⟨_, hpatched, rfl, rfl, rfl⟩
  · intro dbS dbR p uid now err vp hval hnew
    rcases findOrCreateJobSearch_cases dbS vp now with ⟨_, hex, _⟩ | ⟨hdb, hres⟩
    · rw [hnew] at hex
      cases hex
    · have hnc : ¬((findOrCreateJobSearch dbS vp now).1.isExisting = true ∧
          (findOrCreateJobSearch dbS vp now).1.status = .complete) := by
        intro hcon
        rw [hnew] at hcon
        cases hcon.1
      have hnp : ¬((findOrCreateJobSearch dbS vp now).1.isExisting = true ∧
          (findOrCreateJobSearch dbS vp now).1.status = .pending) := by
        intro hcon
        rw [hnew] at hcon
        cases hcon.1
      have heq : searchJobs dbS dbR p uid now (.error err) =
          (⟨(findOrCreateJobSearch dbS vp now).1.searchId, .failed, false⟩,
           updateJobSearchResults (findOrCreateJobSearch dbS vp now).2
             (findOrCreateJobSearch dbS vp now).1.searchId
             (.errorMsg err) .failed now,
           dbR) := by
        unfold searchJobs
        simp only [hval]
        rw [if_neg hnc, if_neg hnp]
      refine ⟨by rw [heq], ?_⟩
      have hmemnew : newJobSearchRow vp (freshId (dbS.map (·.id))) now ∈
          (findOrCreateJobSearch dbS vp now).2 := by
        rw [hdb]
        exact List.mem_append.mpr (Or.inr (List.mem_singleton.mpr rfl))
      have hid : (newJobSearchRow vp (freshId (dbS.map (·.id))) now).id =
          (findOrCreateJobSearch dbS vp now).1.searchId := by
        rw [hres]
        rfl
      have hpatched :=
        @mem_updateJobSearchResults_patched ((findOrCreateJobSearch dbS vp now).2)
          ((findOrCreateJobSearch dbS vp now).1.searchId) (RData.errorMsg err)
          Status.failed now (newJobSearchRow vp (freshId (dbS.map (·.id))) now)
          hmemnew hid
      rw [heq]
      exact ⟨_, hpatched, hid, rfl, rfl⟩

/-- C4 witness for the amended claim: a concrete research call from an empty
table schedules a background task; the caller's response is pending, and the
failing background execution marks the unit failed. -/
theorem background_failure_semantics_witness :
    performResearchSync [] "acme" "engineer" "london" .structured none 1000 =
      (⟨1, .pending, false⟩,
       [newResearchRow "acme" "engineer" "london" .structured none 1 1000],
       some 1) ∧
    (⟨1, .pending, false⟩ : ResearchResponse).status = .pending ∧
    (∃ r ∈ researchBackground
        [newResearchRow "acme" "engineer" "london" .structured none 1 1000]
        1 (.error "boom") 2000,
      r.id = 1 ∧ r.status = .failed ∧ r.data = .errorMsg "boom") :=
  ⟨by decide,
   (background_failure_semantics.1 [] "acme" "engineer" "london" .structured
     none 1000 "boom" 2000 ⟨1, .pending, false⟩
     [newResearchRow "acme" "engineer" "london" .structured none 1 1000] 1
     (by decide)).1,
   (background_failure_semantics.1 [] "acme" "engineer" "london" .structured
     none 1000 "boom" 2000 ⟨1, .pending, false⟩
     [newResearchRow "acme" "engineer" "london" .structured none 1 1000] 1
     (by decide)).2.2.2⟩

/-! ### Lemmas for the cosine-similarity claim -/

theorem sumSquares_eq_sq (c : List ℝ) (n : Nat) :
    (∑ i ∈ Finset.range n, c.getD i 0 * c.getD i 0) =
      ∑ i ∈ Finset.range n, c.getD i 0 ^ 2 := by
  refine Finset.sum_congr rfl fun i _ => ?_
  rw [sq]

theorem abs_dot_le {a b : List ℝ} (hlen : a.length = b.length) :
    |dotProduct a b| ≤ Real.sqrt (sumSquares a) * Real.sqrt (sumSquares b) := by
  have hb : sumSquares b =
      ∑ i ∈ Finset.range a.length, b.getD i 0 * b.getD i 0 := by
    unfold sumSquares
    rw [hlen]
  have hupper : dotProduct a b ≤
      Real.sqrt (sumSquares a) * Real.sqrt (sumSquares b) := by
    have h := Real.sum_mul_le_sqrt_mul_sqrt (Finset.range a.length)
      (fun i => a.getD i 0) (fun i => b.getD i 0)
    unfold dotProduct sumSquares
    rw [← hlen, sumSquares_eq_sq a a.length, sumSquares_eq_sq b a.length]
    exact h
  have hlower : -(dotProduct a b) ≤
      Real.sqrt (sumSquares a) * Real.sqrt (sumSquares b) := by
    have h := Real.sum_mul_le_sqrt_mul_sqrt (Finset.range a.length)
      (fun i => -(a.getD i 0)) (fun i => b.getD i 0)
    have hneg : (∑ i ∈ Finset.range a.length, -(a.getD i 0) * b.getD i 0) =
        -(dotProduct a b) := by
      unfold dotProduct
      rw [← Finset.sum_neg_distrib]
      refine Finset.sum_congr rfl fun i _ => ?_
      ring
    have hsqneg : (∑ i ∈ Finset.range a.length, (-(a.getD i 0)) ^ 2) =
        ∑ i ∈ Finset.range a.length, a.getD i 0 ^ 2 := by
      refine Finset.sum_congr rfl fun i _ => ?_
      rw [neg_sq]
    rw [hneg, hsqneg] at h
    have hsa : Real.sqrt (∑ i ∈ Finset.range a.length, a.getD i 0 ^ 2) =
        Real.sqrt (sumSquares a) := by
      rw [sumSquares, sumSquares_eq_sq]
    have hsb : Real.sqrt (∑ i ∈ Finset.range a.length, b.getD i 0 ^ 2) =
        Real.sqrt (sumSquares b) := by
      rw [hb, sumSquares_eq_sq]
    rw [hsa, hsb] at h
    exact h
  exact abs_le.mpr ⟨by linarith, hupper⟩

/-- C6 counterexample.  The claim says the cosine-similarity operation
returns 0 and does not throw when the two vectors have different lengths, and
it cites calculateCosineSimilarity in the embeddings module — but that
function THROWS on a length mismatch: on the vectors [1] and [1, 2] it
returns the thrown error, not 0. -/
theorem calculateCosineSimilarity_throws_on_mismatch :
    calculateCosineSimilarity [(1 : ℝ)] [1, 2] =
      .error "Vectors must have the same length" ∧
    calculateCosineSimilarity [(1 : ℝ)] [1, 2] ≠ .ok 0 := by
  constructor
  · norm_num [calculateCosineSimilarity]
  · norm_num [calculateCosineSimilarity]
    intro hcon
    exact Except.noConfusion hcon

/-- C6 (amended).  Cosine-similarity totality, per implementation: the convex
cosineSimilarity returns 0 on a length mismatch, returns 0 when either norm
is zero, and otherwise returns dot(a,b)/(|a||b|), which lies in [-1, 1];
calculateCosineSimilarity in the embeddings module agrees on equal-length
inputs (returning 0 on a zero norm and the same quotient otherwise, with the
same [-1, 1] bound via Except.ok) but THROWS on a length mismatch instead of
returning 0.  JS numbers are modelled as real numbers. -/
theorem cosine_similarity_totality (a b : List ℝ) :
    (a.length ≠ b.length →
      cosineSimilarity a b = 0 ∧
      calculateCosineSimilarity a b =
        .error "Vectors must have the same length") ∧
    (a.length = b.length →
      Real.sqrt (sumSquares a) = 0 ∨ Real.sqrt (sumSquares b) = 0 →
      cosineSimilarity a b = 0 ∧ calculateCosineSimilarity a b = .ok 0) ∧
    (a.length = b.length →
      Real.sqrt (sumSquares a) ≠ 0 → Real.sqrt (sumSquares b) ≠ 0 →
      cosineSimilarity a b =
        dotProduct a b /
          (Real.sqrt (sumSquares a) * Real.sqrt (sumSquares b)) ∧
      -1 ≤ cosineSimilarity a b ∧ cosineSimilarity a b ≤ 1 ∧
      calculateCosineSimilarity a b = .ok (cosineSimilarity a b)) := by
  refine ⟨?_, ?_, ?_⟩
  · intro hne
    constructor
    · simp [cosineSimilarity, hne]
    · simp [calculateCosineSimilarity, hne]
  · intro hlen hzero
    constructor
    · simp [cosineSimilarity, hlen, hzero]
    · simp [calculateCosineSimilarity, hlen, hzero]
  · intro hlen hA hB
    have hq : cosineSimilarity a b =
        dotProduct a b /
          (Real.sqrt (sumSquares a) * Real.sqrt (sumSquares b)) := by
      simp [cosineSimilarity, hlen, hA, hB]
    have hApos : 0 < Real.sqrt (sumSquares a) :=
      lt_of_le_of_ne (Real.sqrt_nonneg _) (Ne.symm hA)
    have hBpos : 0 < Real.sqrt (sumSquares b) :=
      lt_of_le_of_ne (Real.sqrt_nonneg _) (Ne.symm hB)
    have hABpos : 0 < Real.sqrt (sumSquares a) * Real.sqrt (sumSquares b) :=
      mul_pos hApos hBpos
    have habs := abs_dot_le hlen
    have h1 := (abs_le.mp habs).1
    have h2 := (abs_le.mp habs).2
    refine ⟨hq, ?_, ?_, ?_⟩
    · rw [hq, le_div_iff₀ hABpos]
      linarith
    · rw [hq, div_le_one hABpos]
      exact h2
    · rw [hq]
      simp [calculateCosineSimilarity, hlen, hA, hB]

/-- C6 witness: on the mismatched vectors [1] and [1, 2], the convex
cosineSimilarity returns 0 while the embeddings calculateCosineSimilarity
throws. -/
theorem cosine_similarity_totality_witness :
    ([(1 : ℝ)] : List ℝ).length ≠ ([1, 2] : List ℝ).length ∧
    cosineSimilarity [(1 : ℝ)] [1, 2] = 0 ∧
    calculateCosineSimilarity [(1 : ℝ)] [1, 2] =
      .error "Vectors must have the same length" :=
  ⟨by simp,
   (cosine_similarity_totality [(1 : ℝ)] [1, 2]).1 (by simp) |>.1,
   (cosine_similarity_totality [(1 : ℝ)] [1, 2]).1 (by simp) |>.2⟩

end CsApi
